import Mathlib

/-!
Verification of the evaluation-dashboard aggregation engine.

This file gives a shallow embedding, in Lean 4, of the in-memory
aggregation and indexing engine of the `evaluacion-dashboard-backend`
repository: the domain value objects (`Calificacion`, `Periodo`), the
entities (`Categoria`, `Pregunta`, `Evaluacion`, `Profesor`), the
in-memory repository (`pandas_repository.py`), and the three use cases
(`calcular_promedio_profesor.py`, `obtener_propuesta_mejora.py`,
`obtener_detalle_evaluacion.py`).  Python floats are modelled as exact
rationals (ℚ): every number the engine manipulates is a rating in
[1, 5] or a finite arithmetic mean of such ratings, and the properties
proved below concern exact comparisons (`> 0`, `< 4.0`) on those values.
Python dictionaries (insertion-ordered) are modelled as association
lists / first-occurrence-deduplicated key lists, and Python sets as
deduplicated lists (every consumer below is order-independent in the
set's iteration order).  Exceptions are modelled with `Except`.
-/

/-! ## Generic list helpers -/

/-- Arithmetic mean of a list of rationals (`statistics.mean`); callers
guard against the empty list exactly where the Python source does. -/
def listMean (l : List ℚ) : ℚ := l.sum / l.length

/-- Keep the elements of a list whose key (under `f`) has not been seen
before; `seen` accumulates the keys already emitted.  This models the
first-occurrence key order of a Python `dict` / `set` built by
insertion. -/
def keepFirsts {α β : Type} [DecidableEq β] (f : α → β) : List β → List α → List α
  | _, [] => []
  | seen, a :: as =>
    if f a ∈ seen then keepFirsts f seen as
    else a :: keepFirsts f (f a :: seen) as

/-- First-occurrence deduplication by key. -/
def dedupFirstBy {α β : Type} [DecidableEq β] (f : α → β) (l : List α) : List α :=
  keepFirsts f [] l

/-- `listPrefixOfB n l` is true when `n` is a prefix of `l`. -/
def listPrefixOfB {α : Type} [DecidableEq α] : List α → List α → Bool
  | [], _ => true
  | _ :: _, [] => false
  | a :: as, b :: bs => decide (a = b) && listPrefixOfB as bs

/-- `listSubB n l` is true when `n` occurs as a contiguous sublist of
`l`; this models Python's `needle in haystack` on strings. -/
def listSubB {α : Type} [DecidableEq α] (needle : List α) : List α → Bool
  | [] => needle.isEmpty
  | b :: bs => listPrefixOfB needle (b :: bs) || listSubB needle bs

/-- Python `str.lower` restricted to the alphabet this codebase uses:
ASCII letters plus the uppercase accented Spanish letters appearing in
the category labels and question texts. -/
def pyLowerChar (c : Char) : Char :=
  if 'A' ≤ c ∧ c ≤ 'Z' then Char.ofNat (c.toNat + 32)
  else if c = 'Á' then 'á'
  else if c = 'É' then 'é'
  else if c = 'Í' then 'í'
  else if c = 'Ó' then 'ó'
  else if c = 'Ú' then 'ú'
  else if c = 'Ü' then 'ü'
  else if c = 'Ñ' then 'ñ'
  else c

/-- Python `str.lower` on a whole string. -/
def pyLower (s : String) : String := ⟨s.data.map pyLowerChar⟩

/-! ## Domain value objects and entities -/

/-- `Categoria` enum (`app/domain/entities/categoria.py`). -/
inductive Categoria : Type
  | planeacion
  | conduccion
  | evaluacionAprendizaje
  | componentePersonal
  | comportamiento
  | ensenanzaAprendizaje
  | evaluacion
  | posgrado
  | estructuraAulaVirtual
  | comentarios
deriving DecidableEq

/-- The enum members in declaration order. -/
def Categoria.all : List Categoria :=
  [.planeacion, .conduccion, .evaluacionAprendizaje, .componentePersonal,
   .comportamiento, .ensenanzaAprendizaje, .evaluacion, .posgrado,
   .estructuraAulaVirtual, .comentarios]

/-- The canonical (full) label of each category: the enum's `.value`. -/
def Categoria.value : Categoria → String
  | .planeacion => "PLANEACIÓN DEL PROCESO ENSEÑANZA - APRENDIZAJE - EVALUACIÓN"
  | .conduccion => "CONDUCCIÓN DEL PROCESO ENSEÑANZA-APRENDIZAJE"
  | .evaluacionAprendizaje => "EVALUACIÓN DEL APRENDIZAJE"
  | .componentePersonal => "COMPONENTE PERSONAL"
  | .comportamiento => "COMPORTAMIENTO"
  | .ensenanzaAprendizaje => "ENSEÑANZA-APRENDIZAJE"
  | .evaluacion => "EVALUACIÓN"
  | .posgrado => "POSGRADO"
  | .estructuraAulaVirtual => "ESTRUCTURA DE AULA VIRTUAL"
  | .comentarios => "COMENTARIOS"

/-- `Categoria.descripcion_corta`. -/
def Categoria.descripcionCorta : Categoria → String
  | .planeacion => "Planeación"
  | .conduccion => "Conducción"
  | .evaluacionAprendizaje => "Eval. Aprendizaje"
  | .componentePersonal => "Personal"
  | .comportamiento => "Comportamiento"
  | .ensenanzaAprendizaje => "Enseñanza-Aprendizaje"
  | .evaluacion => "Evaluación"
  | .posgrado => "Posgrado"
  | .estructuraAulaVirtual => "Aula Virtual"
  | .comentarios => "Comentarios"

/-- Value object `Calificacion` (`calificacion.py`): a rating; the
Python constructor enforces `1.0 <= valor <= 5.0` (see
`mkCalificacion` below), so a bare `Calificacion` here is the
already-constructed object. -/
structure Calificacion : Type where
  valor : ℚ
deriving DecidableEq

/-- `Calificacion.es_aprobatoria`: rating `>= 3.0`. -/
def Calificacion.esAprobatoria (c : Calificacion) : Bool :=
  decide (3 ≤ c.valor)

/-- Value object `Periodo` (`periodo.py`); the Python constructor
validates `^\d{4}-[12]$` (see `mkPeriodo` / `matchesPeriodoFormat`). -/
structure Periodo : Type where
  valor : String
deriving DecidableEq

/-- `Pregunta` entity (`pregunta.py`).  Python equality/hash is by
`codigo` only; the repository's question catalog has one object per
code, and every place below that groups by question keys by `codigo`,
mirroring that identity-based equality. -/
structure Pregunta : Type where
  codigo : String
  categoria : Categoria
  texto : String
deriving DecidableEq

/-- `Pregunta.es_comentario`. -/
def Pregunta.esComentario (p : Pregunta) : Bool :=
  decide (p.categoria = Categoria.comentarios)

/-- `Evaluacion` entity (`evaluacion.py`).  The `respuestas` dict
(insertion-ordered, keyed by `Pregunta`) is modelled as an ordered
association list. -/
structure Evaluacion : Type where
  id : String
  profesorDocumento : String
  profesorNombre : String
  periodo : Periodo
  tipoFormulario : String
  respuestas : List (Pregunta × Option Calificacion)
deriving DecidableEq

/-- Errors raised at value-object construction time
(`InvalidCalificacionError` in `exceptions.py`, and the `ValueError`
raised by `Periodo.__post_init__`). -/
inductive DomainError : Type
  | invalidCalificacion (valor : ℚ)
  | periodoFormato (mensaje : String)
deriving DecidableEq

/-- The `ValueError` message built by `Periodo.__post_init__`. -/
def periodoFormatoMensaje (valor : String) : String :=
  "Formato de período inválido: " ++ valor ++ ". Esperado: YYYY-1 o YYYY-2"

/-- The maximal contiguous runs of Unicode code points of category `Nd`
(decimal digits), per Unicode 14.0 as shipped with CPython 3.11: this
is the set `\d` matches when `Periodo.PATTERN` is applied to a `str`.
Every run's length is a multiple of ten and a digit's decimal value is
its offset within the run modulo ten. -/
def unicodeNdRanges : List (Nat × Nat) :=
  [(48, 57), (1632, 1641), (1776, 1785), (1984, 1993), (2406, 2415),
   (2534, 2543), (2662, 2671), (2790, 2799), (2918, 2927), (3046, 3055),
   (3174, 3183), (3302, 3311), (3430, 3439), (3558, 3567), (3664, 3673),
   (3792, 3801), (3872, 3881), (4160, 4169), (4240, 4249), (6112, 6121),
   (6160, 6169), (6470, 6479), (6608, 6617), (6784, 6793), (6800, 6809),
   (6992, 7001), (7088, 7097), (7232, 7241), (7248, 7257), (42528, 42537),
   (43216, 43225), (43264, 43273), (43472, 43481), (43504, 43513),
   (43600, 43609), (44016, 44025), (65296, 65305), (66720, 66729),
   (68912, 68921), (69734, 69743), (69872, 69881), (69942, 69951),
   (70096, 70105), (70384, 70393), (70736, 70745), (70864, 70873),
   (71248, 71257), (71360, 71369), (71472, 71481), (71904, 71913),
   (72016, 72025), (72784, 72793), (73040, 73049), (73120, 73129),
   (73552, 73561), (92768, 92777), (92864, 92873), (93008, 93017),
   (120782, 120831), (123200, 123209), (123632, 123641), (125264, 125273)]

/-- Python `\d` on a `str` pattern: any Unicode decimal digit. -/
def isPyDigit (c : Char) : Bool :=
  unicodeNdRanges.any fun r => decide (r.1 ≤ c.toNat) && decide (c.toNat ≤ r.2)

/-- `Periodo.PATTERN.match(valor)`, that is Python
`re.match(r'^\d{4}-[12]$', valor)`, faithfully: four Unicode decimal
digits, a dash and a final `1` or `2`, optionally followed by exactly
one trailing newline — Python's `$` also matches just before a newline
that ends the string. -/
def matchesPeriodoFormat (s : String) : Bool :=
  match s.data with
  | [a, b, c, d, dash, e] =>
    isPyDigit a && isPyDigit b && isPyDigit c && isPyDigit d &&
      decide (dash = '-') && (decide (e = '1') || decide (e = '2'))
  | [a, b, c, d, dash, e, nl] =>
    isPyDigit a && isPyDigit b && isPyDigit c && isPyDigit d &&
      decide (dash = '-') && (decide (e = '1') || decide (e = '2')) &&
      decide (nl = '\n')
  | _ => false

/-- `Periodo(valor)`: `__post_init__` raises `ValueError` when the
pattern does not match. -/
def mkPeriodo (valor : String) : Except DomainError Periodo :=
  if matchesPeriodoFormat valor then .ok ⟨valor⟩
  else .error (.periodoFormato (periodoFormatoMensaje valor))

/-- `Calificacion(valor)`: `__post_init__` raises
`InvalidCalificacionError` unless `MIN_VALOR <= valor <= MAX_VALOR`. -/
def mkCalificacion (valor : ℚ) : Except DomainError Calificacion :=
  if 1 ≤ valor ∧ valor ≤ 5 then .ok ⟨valor⟩
  else .error (.invalidCalificacion valor)

/-- The list comprehension inside `calcular_promedio_general`: the
values of answered (`cal is not None`) non-comment questions, in
dict order. -/
def Evaluacion.calificacionesValidas (e : Evaluacion) : List ℚ :=
  e.respuestas.filterMap fun pc =>
    match pc.2 with
    | some cal => if pc.1.esComentario then none else some cal.valor
    | none => none

/-- `Evaluacion.calcular_promedio_general`: mean of the qualifying
ratings, `0.0` when there are none. -/
def Evaluacion.calcularPromedioGeneral (e : Evaluacion) : ℚ :=
  let calificaciones := e.calificacionesValidas
  if calificaciones = [] then 0 else listMean calificaciones

/-- The list comprehension inside `calcular_promedio_por_categoria`:
answered ratings on questions of the given category (no comment filter
in the source here). -/
def Evaluacion.calificacionesDeCategoria (e : Evaluacion) (categoria : Categoria) :
    List ℚ :=
  e.respuestas.filterMap fun pc =>
    match pc.2 with
    | some cal => if pc.1.categoria = categoria then some cal.valor else none
    | none => none

/-- `Evaluacion.calcular_promedio_por_categoria`. -/
def Evaluacion.calcularPromedioPorCategoria (e : Evaluacion) (categoria : Categoria) :
    ℚ :=
  let calificaciones := e.calificacionesDeCategoria categoria
  if calificaciones = [] then 0 else listMean calificaciones

/-- `Evaluacion.categorias_evaluadas`: the set of categories of the
questions present (answered or not), comments excluded.  The Python
set is modelled as a first-occurrence-deduplicated list; every
consumer below is independent of the set's iteration order. -/
def Evaluacion.categoriasEvaluadas (e : Evaluacion) : List Categoria :=
  dedupFirstBy (fun c : Categoria => c) (e.respuestas.filterMap fun pc =>
    if pc.1.esComentario then none else some pc.1.categoria)

/-! ## In-memory repository (`pandas_repository.py`)

The repository holds the evaluation list and per-key indexes built by a
single `defaultdict(list)` pass, so each index bucket is exactly the
input list filtered by that key, in input order.  The pure contents of
the queries are given here; the copy/aliasing behaviour of the query
methods is modelled separately with an explicit heap below (claim C8).
-/

/-- `find_by_profesor`: the `_by_profesor` bucket for the document, in
input order (empty when the teacher is unknown). -/
def findByProfesor (evaluaciones : List Evaluacion) (documento : String) :
    List Evaluacion :=
  evaluaciones.filter fun e => decide (e.profesorDocumento = documento)

/-- `get_tipos_formulario`: the `_by_tipo_formulario` keys in
first-occurrence order. -/
def getTiposFormulario (evaluaciones : List Evaluacion) : List String :=
  dedupFirstBy (fun s : String => s) (evaluaciones.map (·.tipoFormulario))

/-! ## Use-case errors (`exceptions.py` + `ValueError`) -/

/-- Errors surfaced by the use cases: `ProfesorNotFoundError` stores
the `documento` argument it was constructed with; `valueError` is the
uncaught Python `ValueError` escaping `Periodo.__post_init__`. -/
inductive UseCaseError : Type
  | profesorNotFound (documento : String)
  | valueError (mensaje : String)
deriving DecidableEq

/-- The message `ProfesorNotFoundError.__init__` formats from its
`documento` argument. -/
def profesorNotFoundMensaje (documento : String) : String :=
  "Profesor con documento " ++ documento ++ " no encontrado"

/-- The full user-facing message of a `UseCaseError`. -/
def UseCaseError.mensaje : UseCaseError → String
  | .profesorNotFound documento => profesorNotFoundMensaje documento
  | .valueError m => m

/-! ## Use case: `CalcularPromedioProfesorUseCase`
(`calcular_promedio_profesor.py`) -/

structure PromedioProfesorRequest : Type where
  documento : String
  periodo : Option String
deriving DecidableEq

structure PromedioCategoriaDTO : Type where
  categoria : String
  categoriaCorta : String
  promedio : ℚ
  totalEvaluaciones : Nat
deriving DecidableEq

structure PromedioActorDTO : Type where
  actor : String
  promedio : ℚ
  totalEvaluaciones : Nat
deriving DecidableEq

structure PromedioProfesorResponse : Type where
  documento : String
  nombreCompleto : String
  periodo : Option String
  promedioGeneral : ℚ
  totalEvaluaciones : Nat
  promediosPorCategoria : List PromedioCategoriaDTO
  promediosPorActor : List PromedioActorDTO
deriving DecidableEq

namespace CalcPromedio

/-- `_calcular_promedio_general`: mean of the per-evaluation means
(`mean(promedios) if promedios else 0.0`). -/
def calcularPromedioGeneral (evaluaciones : List Evaluacion) : ℚ :=
  let promedios := evaluaciones.map (·.calcularPromedioGeneral)
  if promedios = [] then 0 else listMean promedios

/-- The `categoria_promedios[categoria]` bucket built by
`_calcular_por_categoria`: one entry per evaluation whose
`categorias_evaluadas()` contains the (non-comments) category and whose
category-local mean is `> 0`, in evaluation order.  (The matching
`categoria_count` is this list's length: both are updated in
lockstep.) -/
def catPromedios (evaluaciones : List Evaluacion) (categoria : Categoria) :
    List ℚ :=
  evaluaciones.filterMap fun e =>
    if categoria ∈ e.categoriasEvaluadas ∧ categoria ≠ Categoria.comentarios then
      let promedio := e.calcularPromedioPorCategoria categoria
      if 0 < promedio then some promedio else none
    else none

/-- `_calcular_por_categoria`: one DTO per category with a non-empty
bucket, sorted by the full category label.  (The source iterates the
dict keys in insertion order and then sorts; since the ten category
labels are pairwise distinct, iterating the enum's canonical order
before the same sort yields the same list.) -/
def calcularPorCategoria (evaluaciones : List Evaluacion) :
    List PromedioCategoriaDTO :=
  let resultados := Categoria.all.filterMap fun categoria =>
    let promedios := catPromedios evaluaciones categoria
    if promedios = [] then none
    else some ⟨categoria.value, categoria.descripcionCorta,
      listMean promedios, promedios.length⟩
  List.mergeSort resultados fun x y => decide (x.categoria ≤ y.categoria)

/-- The `actor_promedios[actor]` bucket built by `_calcular_por_actor`:
overall means of the evaluations of that `tipo_formulario` whose mean
is `> 0`, in evaluation order. -/
def actorPromedios (evaluaciones : List Evaluacion) (actor : String) : List ℚ :=
  evaluaciones.filterMap fun e =>
    let promedio := e.calcularPromedioGeneral
    if e.tipoFormulario = actor ∧ 0 < promedio then some promedio else none

/-- The keys of `actor_promedios` in insertion order: first occurrence
of each `tipo_formulario` among the qualifying evaluations. -/
def actores (evaluaciones : List Evaluacion) : List String :=
  dedupFirstBy (fun s : String => s) (evaluaciones.filterMap fun e =>
    if 0 < e.calcularPromedioGeneral then some e.tipoFormulario else none)

/-- `_calcular_por_actor`: one DTO per actor key, sorted by label.
(As with categories, sorting after iterating the distinct keys makes
the dict iteration order immaterial.) -/
def calcularPorActor (evaluaciones : List Evaluacion) : List PromedioActorDTO :=
  let resultados := (actores evaluaciones).filterMap fun actor =>
    let promedios := actorPromedios evaluaciones actor
    if promedios = [] then none
    else some ⟨actor, listMean promedios, promedios.length⟩
  List.mergeSort resultados fun x y => decide (x.actor ≤ y.actor)

/-- `CalcularPromedioProfesorUseCase.execute`.  The guard
`if request.periodo:` is Python truthiness: `None` and the empty string
both skip the period filter, so `some ""` behaves like `none`. -/
def execute (repo : List Evaluacion) (request : PromedioProfesorRequest) :
    Except UseCaseError PromedioProfesorResponse :=
  let evaluaciones := findByProfesor repo request.documento
  if evaluaciones = [] then .error (.profesorNotFound request.documento)
  else
    let filtradas : Except UseCaseError (List Evaluacion) :=
      match request.periodo with
      | none => .ok evaluaciones
      | some per =>
        if per = "" then .ok evaluaciones
        else
          match mkPeriodo per with
          | .error (.periodoFormato m) => .error (.valueError m)
          | .error (.invalidCalificacion _) => .error (.valueError "")
          | .ok periodoObj =>
            let evs :=
              evaluaciones.filter fun e => decide (e.periodo = periodoObj)
            if evs = [] then
              .error (.profesorNotFound
                (request.documento ++ " en período " ++ per))
            else .ok evs
    match filtradas with
    | .error err => .error err
    | .ok evs =>
      .ok { documento := request.documento
            nombreCompleto := ((evs.head?).map (·.profesorNombre)).getD ""
            periodo := request.periodo
            promedioGeneral := calcularPromedioGeneral evs
            totalEvaluaciones := evs.length
            promediosPorCategoria := calcularPorCategoria evs
            promediosPorActor := calcularPorActor evs }

end CalcPromedio

/-! ## Use case: `ObtenerPropuestaMejoraUseCase`
(`obtener_propuesta_mejora.py`) -/

structure PropuestaMejoraRequest : Type where
  documento : String
  periodo : Option String
deriving DecidableEq

structure RecomendacionMejora : Type where
  codigoPregunta : String
  textoPregunta : String
  calificacionPromedio : ℚ
  recomendacion : String
deriving DecidableEq

structure MejoraPorCategoria : Type where
  categoria : String
  promedioCategoria : ℚ
  recomendaciones : List RecomendacionMejora
deriving DecidableEq

structure PropuestaMejoraResponse : Type where
  documento : String
  nombreCompleto : String
  periodo : Option String
  categoriasAMejorar : List MejoraPorCategoria
deriving DecidableEq

namespace Mejora

/-- One entry of the module-level `RECOMENDACIONES` table: a category
label, its default recommendation and its ordered keyword table. -/
structure ReglaCategoria : Type where
  categoria : String
  textoDefault : String
  keywords : List (String × String)
deriving DecidableEq

/-- The static `RECOMENDACIONES` rule table, entries and keyword pairs
in source order. -/
def recomendacionesTabla : List ReglaCategoria :=
  [ { categoria := "PLANEACIÓN DEL PROCESO ENSEÑANZA - APRENDIZAJE - EVALUACIÓN"
      textoDefault := "Revise y actualice la planificación de sus clases, asegurándose de incluir objetivos claros, metodologías apropiadas y criterios de evaluación alineados con las competencias del módulo."
      keywords :=
        [ ("conocimientos actualizados", "Actualice sus conocimientos mediante capacitaciones, lectura de literatura reciente y participación en comunidades académicas de su disciplina."),
          ("programa", "Socialice el programa del módulo desde el inicio del periodo, explicando objetivos, contenidos, metodología y criterios de evaluación."),
          ("plan", "Desarrolle un plan de trabajo detallado que sea coherente con el programa y las necesidades de aprendizaje de los estudiantes.") ] },
    { categoria := "CONDUCCIÓN DEL PROCESO ENSEÑANZA-APRENDIZAJE"
      textoDefault := "Implemente metodologías activas que promuevan la participación estudiantil, el pensamiento crítico y la aplicación práctica del conocimiento."
      keywords :=
        [ ("proyectos de aula", "Diseñe proyectos de aula que conecten la teoría con situaciones reales y promuevan la investigación y creatividad estudiantil."),
          ("recursos", "Incorpore diversos recursos didácticos (TIC, materiales audiovisuales, laboratorios) para enriquecer el proceso de aprendizaje."),
          ("metodología", "Diversifique las estrategias metodológicas para atender diferentes estilos de aprendizaje y mantener la motivación estudiantil."),
          ("tecnología", "Integre herramientas tecnológicas (aula virtual, aplicaciones, simuladores) de manera efectiva en sus clases.") ] },
    { categoria := "EVALUACIÓN DEL APRENDIZAJE"
      textoDefault := "Diseñe evaluaciones variadas que midan de forma integral las competencias desarrolladas, proporcionando retroalimentación oportuna y constructiva."
      keywords :=
        [ ("métodos", "Aplique diferentes métodos de evaluación (pruebas escritas, orales, prácticas, proyectos) según las competencias a valorar."),
          ("retroalimentación", "Proporcione retroalimentación clara, específica y oportuna que oriente la mejora del aprendizaje estudiantil."),
          ("coherente", "Asegúrese de que las evaluaciones estén alineadas con los objetivos de aprendizaje y las actividades realizadas en clase."),
          ("criterios", "Defina y comunique claramente los criterios de evaluación antes de cada actividad evaluativa.") ] },
    { categoria := "COMPONENTE PERSONAL"
      textoDefault := "Fortalezca las relaciones interpersonales en el aula mediante el respeto, la empatía y la comunicación efectiva."
      keywords :=
        [ ("respeto", "Mantenga una actitud de respeto y tolerancia hacia la diversidad de ideas, creencias y características de los estudiantes."),
          ("disciplina", "Establezca normas claras de convivencia y mantenga un ambiente de aprendizaje ordenado y propicio."),
          ("comunicación", "Desarrolle habilidades de escucha activa y comunicación asertiva para mejorar la interacción con estudiantes."),
          ("puntualidad", "Demuestre responsabilidad y compromiso cumpliendo puntualmente con horarios y compromisos académicos.") ] } ]

/-- The generic fallback recommendation returned when the category has
no entry in the table. -/
def recomendacionGenerica : String :=
  "Se recomienda revisar y fortalecer las competencias relacionadas con este aspecto mediante capacitación y reflexión sobre su práctica docente."

/-- `_obtener_recomendacion`: exact-label lookup into the table, then
the first keyword (in table order) contained in the lowercased question
text, else the category's default, else the generic fallback. -/
def obtenerRecomendacion (categoria : String) (textoPregunta : String) : String :=
  match recomendacionesTabla.find? (fun r => decide (r.categoria = categoria)) with
  | none => recomendacionGenerica
  | some config =>
    let textoLower := pyLower textoPregunta
    match config.keywords.find? (fun kv => listSubB kv.1.data textoLower.data) with
    | some kv => kv.2
    | none => config.textoDefault

/-- The `categoria_calificaciones[categoria]` bucket built by
`_calcular_promedios_por_categoria`: every answered rating on a
non-comment question of the category, across all evaluations, in
traversal order.  (`if calificacion` is Python truthiness; a
`Calificacion` object is always truthy, so it means `is not None`.) -/
def catCalificaciones (evaluaciones : List Evaluacion) (categoria : Categoria) :
    List ℚ :=
  evaluaciones.flatMap fun e => e.respuestas.filterMap fun pc =>
    match pc.2 with
    | some cal =>
      if pc.1.categoria = categoria ∧ ¬ pc.1.esComentario then some cal.valor
      else none
    | none => none

/-- The keys of `categoria_calificaciones` in insertion order: first
occurrence of each category among the qualifying (answered,
non-comment) answers. -/
def categoriasPresentes (evaluaciones : List Evaluacion) : List Categoria :=
  dedupFirstBy (fun c : Categoria => c)
    (evaluaciones.flatMap fun e => e.respuestas.filterMap fun pc =>
      match pc.2 with
      | some _ => if pc.1.esComentario then none else some pc.1.categoria
      | none => none)

/-- `_calcular_promedios_por_categoria`: the dict of flat per-category
means, as an ordered association list. -/
def promediosPorCategoria (evaluaciones : List Evaluacion) :
    List (Categoria × ℚ) :=
  (categoriasPresentes evaluaciones).map fun categoria =>
    (categoria, listMean (catCalificaciones evaluaciones categoria))

/-- The keys of `pregunta_calificaciones` in `_generar_recomendaciones`:
the questions of the category having at least one answered rating,
first-occurrence order, deduplicated by `codigo` (the dict keys use
`Pregunta.__eq__`, which compares codes, and keep the first-inserted
object). -/
def preguntasConCalifs (evaluaciones : List Evaluacion) (categoria : Categoria) :
    List Pregunta :=
  dedupFirstBy (·.codigo)
    (evaluaciones.flatMap fun e => e.respuestas.filterMap fun pc =>
      match pc.2 with
      | some _ =>
        if pc.1.categoria = categoria ∧ ¬ pc.1.esComentario then some pc.1
        else none
      | none => none)

/-- The `pregunta_calificaciones[pregunta]` bucket: the answered
ratings of the question with this code in this category, across all
evaluations, in traversal order. -/
def calificacionesDePregunta (evaluaciones : List Evaluacion)
    (categoria : Categoria) (codigo : String) : List ℚ :=
  evaluaciones.flatMap fun e => e.respuestas.filterMap fun pc =>
    match pc.2 with
    | some cal =>
      if pc.1.categoria = categoria ∧ ¬ pc.1.esComentario ∧ pc.1.codigo = codigo
      then some cal.valor else none
    | none => none

/-- `_generar_recomendaciones`: one recommendation per question with a
flat mean `< 4.0`, then a stable ascending sort by that mean
(`list.sort` is stable, as is `List.mergeSort`). -/
def generarRecomendaciones (categoria : Categoria)
    (evaluaciones : List Evaluacion) : List RecomendacionMejora :=
  let recomendaciones :=
    (preguntasConCalifs evaluaciones categoria).filterMap fun pregunta =>
      let promedio :=
        listMean (calificacionesDePregunta evaluaciones categoria pregunta.codigo)
      if promedio < 4 then
        some ⟨pregunta.codigo, pregunta.texto, promedio,
          obtenerRecomendacion categoria.value pregunta.texto⟩
      else none
  List.mergeSort recomendaciones
    fun a b => decide (a.calificacionPromedio ≤ b.calificacionPromedio)

/-- The `categorias_a_mejorar` list built by `execute`: categories with
flat mean `< 4.0` whose recommendation list is non-empty, in dict
iteration order. -/
def categoriasAMejorar (evaluaciones : List Evaluacion) :
    List MejoraPorCategoria :=
  (promediosPorCategoria evaluaciones).filterMap fun cp =>
    if cp.2 < 4 then
      let recomendaciones := generarRecomendaciones cp.1 evaluaciones
      if recomendaciones = [] then none
      else some ⟨cp.1.value, cp.2, recomendaciones⟩
    else none

/-- `ObtenerPropuestaMejoraUseCase.execute`.  `if request.periodo:` is
Python truthiness: `None` and the empty string both skip the filter. -/
def execute (repo : List Evaluacion) (request : PropuestaMejoraRequest) :
    Except UseCaseError PropuestaMejoraResponse :=
  let evaluaciones := findByProfesor repo request.documento
  if evaluaciones = [] then .error (.profesorNotFound request.documento)
  else
    let profesorNombre := ((evaluaciones.head?).map (·.profesorNombre)).getD ""
    let filtradas :=
      match request.periodo with
      | none => evaluaciones
      | some per =>
        if per = "" then evaluaciones
        else evaluaciones.filter fun e => decide (e.periodo.valor = per)
    if filtradas = [] then
      .error (.profesorNotFound
        ("No se encontraron evaluaciones para el profesor " ++ request.documento))
    else
      .ok { documento := request.documento
            nombreCompleto := profesorNombre
            periodo := request.periodo
            categoriasAMejorar := categoriasAMejorar filtradas }

end Mejora

/-! ## Use case: `ObtenerDetalleEvaluacionUseCase`
(`obtener_detalle_evaluacion.py`) -/

structure DetalleEvaluacionRequest : Type where
  documento : String
  periodo : Option String
deriving DecidableEq

structure RespuestaPreguntaDTO : Type where
  codigoPregunta : String
  textoPregunta : String
  categoria : String
  calificacion : Option ℚ
  tipoFormulario : String
deriving DecidableEq

structure DetalleEvaluacionResponse : Type where
  documento : String
  nombreCompleto : String
  periodo : Option String
  totalEvaluaciones : Nat
  respuestas : List RespuestaPreguntaDTO
deriving DecidableEq

namespace Detalle

/-- `ObtenerDetalleEvaluacionUseCase.execute`.  `if request.periodo:`
is Python truthiness: `None` and the empty string both skip the
filter. -/
def execute (repo : List Evaluacion) (request : DetalleEvaluacionRequest) :
    Except UseCaseError DetalleEvaluacionResponse :=
  let evaluaciones := findByProfesor repo request.documento
  if evaluaciones = [] then .error (.profesorNotFound request.documento)
  else
    let profesorNombre := ((evaluaciones.head?).map (·.profesorNombre)).getD ""
    let filtradas :=
      match request.periodo with
      | none => evaluaciones
      | some per =>
        if per = "" then evaluaciones
        else evaluaciones.filter fun e => decide (e.periodo.valor = per)
    if filtradas = [] then
      let periodoMsg :=
        match request.periodo with
        | some per => if per = "" then "" else " en el período " ++ per
        | none => ""
      .error (.profesorNotFound
        ("No se encontraron evaluaciones para el profesor "
          ++ request.documento ++ periodoMsg))
    else
      .ok { documento := request.documento
            nombreCompleto := profesorNombre
            periodo := request.periodo
            totalEvaluaciones := filtradas.length
            respuestas := filtradas.flatMap fun e =>
              e.respuestas.map fun pc =>
                ⟨pc.1.codigo, pc.1.texto, pc.1.categoria.value,
                  pc.2.map (·.valor), e.tipoFormulario⟩ }

end Detalle

/-! ## Heap model of the repository queries (aliasing, claim C8)

Python lists are mutable heap cells.  To state that the repository's
sequence-returning queries return fresh copies (`.copy()` or a fresh
comprehension in `pandas_repository.py`), the heap is modelled
explicitly: a cell store plus an allocation counter.  The repository
object holds references to its internal bucket lists; each query
allocates a fresh cell holding the bucket's contents, exactly because
the source copies.  Mutating the returned cell is a `write`. -/

/-- A heap of mutable list cells over an element type. -/
structure Heap (α : Type) : Type where
  next : Nat
  mem : Nat → List α

/-- Allocate a fresh cell holding `v` (what `.copy()` / a list
comprehension does). -/
def Heap.alloc {α : Type} (h : Heap α) (v : List α) : Nat × Heap α :=
  (h.next, { next := h.next + 1
             mem := fun r => if r = h.next then v else h.mem r })

/-- Overwrite the cell `r` (any in-place mutation of a Python list is
abstracted as replacing its contents). -/
def Heap.write {α : Type} (h : Heap α) (r : Nat) (v : List α) : Heap α :=
  { next := h.next, mem := fun x => if x = r then v else h.mem x }

/-- Association-list lookup, modelling `dict.get(key, ...)` for the
index dicts. -/
def lookupRef {κ : Type} [DecidableEq κ] (assoc : List (κ × Nat)) (k : κ) :
    Option Nat :=
  (assoc.find? fun kv => decide (kv.1 = k)).map (·.2)

/-- Read the bucket behind an optional reference; `none` is the
`dict.get(key, [])` default. -/
def readBucket {α : Type} (h : Heap α) : Option Nat → List α
  | some r => h.mem r
  | none => []

/-- `PandasEvaluacionRepository` as heap references: `_evaluaciones`
plus the three index dicts mapping keys to bucket cells. -/
structure EvalRepoH : Type where
  evaluacionesRef : Nat
  byProfesor : List (String × Nat)
  byPeriodo : List (Periodo × Nat)
  byTipoFormulario : List (String × Nat)
deriving DecidableEq

/-- Every heap reference the evaluation repository owns. -/
def EvalRepoH.refs (repo : EvalRepoH) : List Nat :=
  repo.evaluacionesRef ::
    (repo.byProfesor.map (·.2) ++ repo.byPeriodo.map (·.2)
      ++ repo.byTipoFormulario.map (·.2))

/-- All internal references live below the allocation frontier (true of
any repository actually built on a heap). -/
def EvalRepoH.bounded (repo : EvalRepoH) (h : Heap Evaluacion) : Prop :=
  ∀ r ∈ repo.refs, r < h.next

/-- The sequence-returning queries of `PandasEvaluacionRepository`. -/
inductive EvalQuery : Type
  | findAll
  | byProfesor (documento : String)
  | byPeriodo (periodo : Periodo)
  | byTipoFormulario (tipo : String)
  | byProfesorAndPeriodo (documento : String) (periodo : Periodo)
deriving DecidableEq

/-- Run one query: read the internal bucket, allocate a fresh result
cell (`find_all`, `find_by_profesor`, `find_by_periodo`,
`find_by_tipo_formulario` call `.copy()`; `find_by_profesor_and_periodo`
builds a fresh comprehension). -/
def runEvalQuery (repo : EvalRepoH) (h : Heap Evaluacion) :
    EvalQuery → Nat × Heap Evaluacion
  | .findAll => h.alloc (h.mem repo.evaluacionesRef)
  | .byProfesor documento =>
    h.alloc (readBucket h (lookupRef repo.byProfesor documento))
  | .byPeriodo periodo =>
    h.alloc (readBucket h (lookupRef repo.byPeriodo periodo))
  | .byTipoFormulario tipo =>
    h.alloc (readBucket h (lookupRef repo.byTipoFormulario tipo))
  | .byProfesorAndPeriodo documento periodo =>
    h.alloc ((readBucket h (lookupRef repo.byProfesor documento)).filter
      fun e => decide (e.periodo = periodo))

/-- `PandasPreguntaRepository` as heap references. -/
structure PregRepoH : Type where
  preguntasRef : Nat
  byCategoria : List (Categoria × Nat)
deriving DecidableEq

/-- Every heap reference the question repository owns. -/
def PregRepoH.refs (repo : PregRepoH) : List Nat :=
  repo.preguntasRef :: repo.byCategoria.map (·.2)

/-- Boundedness for the question repository. -/
def PregRepoH.bounded (repo : PregRepoH) (h : Heap Pregunta) : Prop :=
  ∀ r ∈ repo.refs, r < h.next

/-- The sequence-returning queries of `PandasPreguntaRepository`. -/
inductive PregQuery : Type
  | findAll
  | byCategoria (categoria : Categoria)
deriving DecidableEq

/-- Run one question-repository query (`find_all` and
`find_by_categoria` both return `.copy()`). -/
def runPregQuery (repo : PregRepoH) (h : Heap Pregunta) :
    PregQuery → Nat × Heap Pregunta
  | .findAll => h.alloc (h.mem repo.preguntasRef)
  | .byCategoria categoria =>
    h.alloc (readBucket h (lookupRef repo.byCategoria categoria))

/-! ## Spec-side formulations

Second definitions following the specification's words, used to compare
the code's behaviour against the spec (never used inside the model
above). -/

/-- Spec wording, Average Calculator step 1: an evaluation's own mean
over all ratings present, ignoring unanswered questions and questions
of the `Comments` category; `0.0` when it has zero qualifying
ratings. -/
def specPromedioEvaluacion (e : Evaluacion) : ℚ :=
  let ratings := e.respuestas.filterMap fun pc =>
    match pc.2 with
    | some cal =>
      if pc.1.categoria = Categoria.comentarios then none else some cal.valor
    | none => none
  if ratings = [] then 0 else listMean ratings

/-- Spec wording, claim C2: the evaluations qualifying for a category
are those whose category-local mean is not exactly `0.0`. -/
def specQualCat (evaluaciones : List Evaluacion) (categoria : Categoria) :
    List Evaluacion :=
  evaluaciones.filter fun e =>
    decide (e.calcularPromedioPorCategoria categoria ≠ 0)

/-- Spec wording, claim C2: the members of an evaluator-type group,
excluding those whose overall per-evaluation mean is exactly `0.0`. -/
def specQualActor (evaluaciones : List Evaluacion) (tipo : String) :
    List Evaluacion :=
  evaluaciones.filter fun e =>
    decide (e.tipoFormulario = tipo ∧ e.calcularPromedioGeneral ≠ 0)

/-- Spec wording, Recommendation Engine step 1: every individual
answered rating on a question of the category, across all
evaluations (flat, not mean-of-means). -/
def specCatRatings (evaluaciones : List Evaluacion) (categoria : Categoria) :
    List ℚ :=
  evaluaciones.flatMap fun e => e.respuestas.filterMap fun pc =>
    match pc.2 with
    | some cal => if pc.1.categoria = categoria then some cal.valor else none
    | none => none

/-- Spec wording, Recommendation Engine step 3: one question's answered
ratings (matched by question code) across all evaluations. -/
def specPregRatings (evaluaciones : List Evaluacion) (categoria : Categoria)
    (codigo : String) : List ℚ :=
  evaluaciones.flatMap fun e => e.respuestas.filterMap fun pc =>
    match pc.2 with
    | some cal =>
      if pc.1.categoria = categoria ∧ pc.1.codigo = codigo then some cal.valor
      else none
    | none => none

/-- Spec wording, Recommendation Engine step 4: exact-category lookup,
then the first keyword pair whose keyword is a *case-insensitive*
substring of the question text, else the category default, else the
generic fallback. -/
def specResolve (categoria : String) (textoPregunta : String) : String :=
  match Mejora.recomendacionesTabla.find?
      (fun r => decide (r.categoria = categoria)) with
  | none => Mejora.recomendacionGenerica
  | some config =>
    match config.keywords.find?
        (fun kv => listSubB (pyLower kv.1).data (pyLower textoPregunta).data) with
    | some kv => kv.2
    | none => config.textoDefault

/-- All ratings stored in an evaluation went through the `Calificacion`
constructor, i.e. lie in `[1, 5]` (the loader boundary guarantees
this; it is the hypothesis of the invariant claims). -/
def respuestasValidas (e : Evaluacion) : Prop :=
  ∀ pc ∈ e.respuestas, ∀ cal : Calificacion, pc.2 = some cal →
    1 ≤ cal.valor ∧ cal.valor ≤ 5

instance (e : Evaluacion) : Decidable (respuestasValidas e) := by
  unfold respuestasValidas; infer_instance

/-! ## Concrete demonstration data (used by the spec's worked example
and as witnesses) -/

/-- A non-comments question (label from the Conducción category). -/
def pregDemo : Pregunta :=
  ⟨"P147", Categoria.conduccion, "Aplica la metodología adecuada en sus clases"⟩

/-- First evaluation of the spec's worked example: period `2025-1`,
single rating `3.0`. -/
def evalDemo1 : Evaluacion :=
  ⟨"E1", "D1", "DOCENTE UNO", ⟨"2025-1"⟩, "ESTUDIANTE V3",
    [(pregDemo, some ⟨3⟩)]⟩

/-- Second evaluation of the worked example: period `2025-2`, single
rating `5.0`. -/
def evalDemo2 : Evaluacion :=
  ⟨"E2", "D1", "DOCENTE UNO", ⟨"2025-2"⟩, "ESTUDIANTE V3",
    [(pregDemo, some ⟨5⟩)]⟩

/-- The worked example's repository contents. -/
def repoDemo : List Evaluacion := [evalDemo1, evalDemo2]

/-! ## General lemmas about the helpers -/

theorem listNeNilIffExistsMem {α : Type} {l : List α} : l ≠ [] ↔ ∃ x, x ∈ l := by
  cases l <;> simp

theorem filterMapIfEqMapFilter {α β : Type} (p : α → Prop) [DecidablePred p]
    (g : α → β) (l : List α) :
    (l.filterMap fun a => if p a then some (g a) else none)
      = (l.filter fun a => decide (p a)).map g := by
  induction l with
  | nil => rfl
  | cons a t ih =>
    by_cases h : p a <;>
      simp [List.filterMap_cons, List.filter_cons, h, ih]

theorem memKeepFirstsId {α : Type} [DecidableEq α] (seen l : List α) (x : α) :
    x ∈ keepFirsts (fun c : α => c) seen l ↔ x ∈ l ∧ x ∉ seen := by
  induction l generalizing seen with
  | nil => simp [keepFirsts]
  | cons a t ih =>
    simp only [keepFirsts, List.mem_cons]
    by_cases ha : a ∈ seen
    · rw [if_pos ha, ih]
      constructor
      · rintro ⟨hx, hs⟩; exact ⟨Or.inr hx, hs⟩
      · rintro ⟨hx | hx, hs⟩
        · exact absurd (hx ▸ ha) hs
        · exact ⟨hx, hs⟩
    · rw [if_neg ha]
      simp only [List.mem_cons, ih, List.mem_cons]
      constructor
      · rintro (rfl | ⟨hx, hs⟩)
        · exact ⟨Or.inl rfl, ha⟩
        · exact ⟨Or.inr hx, fun h => hs (Or.inr h)⟩
      · rintro ⟨rfl | hx, hs⟩
        · exact Or.inl rfl
        · by_cases hxa : x = a
          · exact Or.inl hxa
          · exact Or.inr ⟨hx, fun h => h.elim hxa hs⟩

theorem memDedupFirstById {α : Type} [DecidableEq α] (l : List α) (x : α) :
    x ∈ dedupFirstBy (fun c : α => c) l ↔ x ∈ l := by
  rw [dedupFirstBy, memKeepFirstsId]; simp

theorem lengthQLeSumOfOneLe {l : List ℚ} (h : ∀ x ∈ l, 1 ≤ x) :
    (l.length : ℚ) ≤ l.sum := by
  induction l with
  | nil => simp
  | cons a t ih =>
    have ha := h a (List.mem_cons_self _ _)
    have ht := ih fun x hx => h x (List.mem_cons_of_mem _ hx)
    simp only [List.sum_cons, List.length_cons]
    push_cast
    linarith

theorem oneLeListMean {l : List ℚ} (hne : l ≠ []) (h : ∀ x ∈ l, 1 ≤ x) :
    1 ≤ listMean l := by
  have hlen : 0 < (l.length : ℚ) := by
    have := List.length_pos.mpr hne
    exact_mod_cast this
  rw [listMean, le_div_iff₀ hlen, one_mul]
  exact lengthQLeSumOfOneLe h

/-! ## Membership characterizations of the rating lists -/

theorem memCalificacionesValidas {e : Evaluacion} {x : ℚ} :
    x ∈ e.calificacionesValidas ↔
      ∃ pc ∈ e.respuestas, ∃ cal : Calificacion,
        pc.2 = some cal ∧ pc.1.esComentario = false ∧ cal.valor = x := by
  simp only [Evaluacion.calificacionesValidas, List.mem_filterMap]
  constructor
  · rintro ⟨⟨p, c⟩, hm, heq⟩
    cases c with
    | none => simp at heq
    | some cal =>
      simp only [Bool.ite_eq_true_distrib] at heq
      split at heq
      · cases heq
      · next hcom =>
        exact ⟨(p, some cal), hm, cal, rfl, by simpa using hcom,
          by simpa using heq⟩
  · rintro ⟨⟨p, c⟩, hm, cal, hc, hcom, hval⟩
    refine ⟨(p, c), hm, ?_⟩
    simp only at hc
    subst hc
    simp [hcom, hval]

theorem memCalificacionesDeCategoria {e : Evaluacion} {categoria : Categoria}
    {x : ℚ} :
    x ∈ e.calificacionesDeCategoria categoria ↔
      ∃ pc ∈ e.respuestas, ∃ cal : Calificacion,
        pc.2 = some cal ∧ pc.1.categoria = categoria ∧ cal.valor = x := by
  simp only [Evaluacion.calificacionesDeCategoria, List.mem_filterMap]
  constructor
  · rintro ⟨⟨p, c⟩, hm, heq⟩
    cases c with
    | none => simp at heq
    | some cal =>
      dsimp only at heq
      split at heq
      · next hcat =>
        exact ⟨(p, some cal), hm, cal, rfl, hcat, by simpa using heq⟩
      · cases heq
  · rintro ⟨⟨p, c⟩, hm, cal, hc, hcat, hval⟩
    refine ⟨(p, c), hm, ?_⟩
    dsimp only at hc hcat ⊢
    subst hc
    simp [hcat, hval]

/-! ## Validity invariants (claims C2 and C10) -/

theorem promedioGeneralCases (e : Evaluacion) (h : respuestasValidas e) :
    (e.calcularPromedioGeneral = 0 ∧ e.calificacionesValidas = [])
      ∨ (1 ≤ e.calcularPromedioGeneral ∧ e.calificacionesValidas ≠ []) := by
  by_cases hne : e.calificacionesValidas = []
  · exact Or.inl ⟨by simp [Evaluacion.calcularPromedioGeneral, hne], hne⟩
  · refine Or.inr ⟨?_, hne⟩
    have hone : ∀ x ∈ e.calificacionesValidas, 1 ≤ x := by
      intro x hx
      rcases memCalificacionesValidas.mp hx with ⟨pc, hpc, cal, hc, _, hval⟩
      exact hval ▸ (h pc hpc cal hc).1
    simp only [Evaluacion.calcularPromedioGeneral, if_neg hne]
    exact oneLeListMean hne hone

theorem promedioPorCategoriaCases (e : Evaluacion) (categoria : Categoria)
    (h : respuestasValidas e) :
    (e.calcularPromedioPorCategoria categoria = 0
        ∧ e.calificacionesDeCategoria categoria = [])
      ∨ (1 ≤ e.calcularPromedioPorCategoria categoria
        ∧ e.calificacionesDeCategoria categoria ≠ []) := by
  by_cases hne : e.calificacionesDeCategoria categoria = []
  · exact Or.inl ⟨by simp [Evaluacion.calcularPromedioPorCategoria, hne], hne⟩
  · refine Or.inr ⟨?_, hne⟩
    have hone : ∀ x ∈ e.calificacionesDeCategoria categoria, 1 ≤ x := by
      intro x hx
      rcases memCalificacionesDeCategoria.mp hx with ⟨pc, hpc, cal, hc, _, hval⟩
      exact hval ▸ (h pc hpc cal hc).1
    simp only [Evaluacion.calcularPromedioPorCategoria, if_neg hne]
    exact oneLeListMean hne hone

theorem promedioGeneralPosIff (e : Evaluacion) (h : respuestasValidas e) :
    0 < e.calcularPromedioGeneral ↔ e.calificacionesValidas ≠ [] := by
  rcases promedioGeneralCases e h with ⟨h0, hnil⟩ | ⟨h1, hne⟩
  · simp [h0, hnil]
  · constructor
    · intro _; exact hne
    · intro _; linarith

theorem promedioGeneralNeZeroIff (e : Evaluacion) (h : respuestasValidas e) :
    e.calcularPromedioGeneral ≠ 0 ↔ e.calificacionesValidas ≠ [] := by
  rcases promedioGeneralCases e h with ⟨h0, hnil⟩ | ⟨h1, hne⟩
  · simp [h0, hnil]
  · constructor
    · intro _; exact hne
    · intro _; intro hz; rw [hz] at h1; linarith

theorem promedioPorCategoriaPosIff (e : Evaluacion) (categoria : Categoria)
    (h : respuestasValidas e) :
    0 < e.calcularPromedioPorCategoria categoria
      ↔ e.calificacionesDeCategoria categoria ≠ [] := by
  rcases promedioPorCategoriaCases e categoria h with ⟨h0, hnil⟩ | ⟨h1, hne⟩
  · simp [h0, hnil]
  · constructor
    · intro _; exact hne
    · intro _; linarith

theorem promedioPorCategoriaNeZeroIff (e : Evaluacion) (categoria : Categoria)
    (h : respuestasValidas e) :
    e.calcularPromedioPorCategoria categoria ≠ 0
      ↔ e.calificacionesDeCategoria categoria ≠ [] := by
  rcases promedioPorCategoriaCases e categoria h with ⟨h0, hnil⟩ | ⟨h1, hne⟩
  · simp [h0, hnil]
  · constructor
    · intro _; exact hne
    · intro _; intro hz; rw [hz] at h1; linarith

/-! ## Period strings: decomposition, arithmetic, ordering (claim C7) -/

theorem memKeysKeepFirsts {α β : Type} [DecidableEq β] (f : α → β)
    (seen : List β) (l : List α) (k : β) :
    (∃ b ∈ keepFirsts f seen l, f b = k) ↔ (k ∈ l.map f ∧ k ∉ seen) := by
  induction l generalizing seen with
  | nil => simp [keepFirsts]
  | cons a t ih =>
    simp only [keepFirsts, List.map_cons, List.mem_cons]
    by_cases ha : f a ∈ seen
    · rw [if_pos ha, ih]
      constructor
      · rintro ⟨hk, hs⟩
        exact ⟨Or.inr hk, hs⟩
      · rintro ⟨hk | hk, hs⟩
        · exact absurd (hk ▸ ha) hs
        · exact ⟨hk, hs⟩
    · rw [if_neg ha]
      constructor
      · rintro ⟨b, hb, hfb⟩
        rcases List.mem_cons.mp hb with rfl | hb'
        · exact ⟨Or.inl hfb.symm, hfb ▸ ha⟩
        · obtain ⟨hk, hs⟩ := ih (f a :: seen) |>.mp ⟨b, hb', hfb⟩
          exact ⟨Or.inr hk, fun h => hs (List.mem_cons_of_mem _ h)⟩
      · rintro ⟨hk | hk, hs⟩
        · exact ⟨a, List.mem_cons_self _ _, hk.symm⟩
        · by_cases hka : k = f a
          · exact ⟨a, List.mem_cons_self _ _, hka.symm⟩
          · obtain ⟨b, hb, hfb⟩ := (ih (f a :: seen)).mpr
              ⟨hk, fun h => (List.mem_cons.mp h).elim hka hs⟩
            exact ⟨b, List.mem_cons_of_mem _ hb, hfb⟩

theorem memCategoriasEvaluadas {e : Evaluacion} {cat : Categoria} :
    cat ∈ e.categoriasEvaluadas ↔
      ∃ pc ∈ e.respuestas, pc.1.esComentario = false ∧ pc.1.categoria = cat := by
  unfold Evaluacion.categoriasEvaluadas
  rw [memDedupFirstById, List.mem_filterMap]
  constructor
  · rintro ⟨pc, hm, heq⟩
    split at heq
    · cases heq
    · next hcom =>
      exact ⟨pc, hm, by simpa using hcom, by simpa using heq⟩
  · rintro ⟨pc, hm, hcom, hcat⟩
    exact ⟨pc, hm, by simp [hcom, hcat]⟩

theorem catQualNeNilMemCategorias {e : Evaluacion} {cat : Categoria}
    (hcat : cat ≠ Categoria.comentarios)
    (hne : e.calificacionesDeCategoria cat ≠ []) :
    cat ∈ e.categoriasEvaluadas := by
  obtain ⟨x, hx⟩ := listNeNilIffExistsMem.mp hne
  obtain ⟨pc, hm, c, _, hc, _⟩ := memCalificacionesDeCategoria.mp hx
  exact memCategoriasEvaluadas.mpr
    ⟨pc, hm, by simp [Pregunta.esComentario, hc, hcat], hc⟩

theorem catPromediosEqQual (evaluaciones : List Evaluacion) (cat : Categoria)
    (hcat : cat ≠ Categoria.comentarios)
    (hval : ∀ e ∈ evaluaciones, respuestasValidas e) :
    CalcPromedio.catPromedios evaluaciones cat
      = (specQualCat evaluaciones cat).map
          (·.calcularPromedioPorCategoria cat) := by
  rw [specQualCat, ← filterMapIfEqMapFilter
    (fun e : Evaluacion => e.calcularPromedioPorCategoria cat ≠ 0)]
  unfold CalcPromedio.catPromedios
  refine List.filterMap_congr ?_
  intro e he
  have hv := hval e he
  by_cases hp : e.calcularPromedioPorCategoria cat ≠ 0
  · rw [if_pos ⟨catQualNeNilMemCategorias hcat
        ((promedioPorCategoriaNeZeroIff e cat hv).mp hp), hcat⟩]
    rw [if_pos hp, if_pos (lt_of_le_of_lt (by norm_num)
      (lt_of_lt_of_le (by norm_num : (0:ℚ) < 1)
        ((promedioPorCategoriaCases e cat hv).resolve_left
          (fun hc => hp hc.1)).1))]
  · rw [not_not] at hp
    refine Eq.trans ?_ (if_neg (not_not_intro hp)).symm
    split
    · rw [if_neg (by rw [hp]; exact lt_irrefl 0)]
    · rfl

theorem actorPromediosEqQual (evaluaciones : List Evaluacion) (tipo : String)
    (hval : ∀ e ∈ evaluaciones, respuestasValidas e) :
    CalcPromedio.actorPromedios evaluaciones tipo
      = (specQualActor evaluaciones tipo).map (·.calcularPromedioGeneral) := by
  rw [specQualActor, ← filterMapIfEqMapFilter
    (fun e : Evaluacion =>
      e.tipoFormulario = tipo ∧ e.calcularPromedioGeneral ≠ 0)]
  unfold CalcPromedio.actorPromedios
  refine List.filterMap_congr ?_
  intro e he
  have hv := hval e he
  have hiff : 0 < e.calcularPromedioGeneral ↔ e.calcularPromedioGeneral ≠ 0 := by
    rw [promedioGeneralPosIff e hv, promedioGeneralNeZeroIff e hv]
  by_cases ht : e.tipoFormulario = tipo
  · by_cases hp : e.calcularPromedioGeneral ≠ 0
    · rw [if_pos ⟨ht, hiff.mpr hp⟩, if_pos ⟨ht, hp⟩]
    · rw [if_neg (fun hc => hp (hiff.mp hc.2)), if_neg (fun hc => hp hc.2)]
  · rw [if_neg (fun hc => ht hc.1), if_neg (fun hc => ht hc.1)]

theorem memActoresIff (evaluaciones : List Evaluacion) (tipo : String)
    (hval : ∀ e ∈ evaluaciones, respuestasValidas e) :
    tipo ∈ CalcPromedio.actores evaluaciones
      ↔ specQualActor evaluaciones tipo ≠ [] := by
  unfold CalcPromedio.actores
  rw [memDedupFirstById, List.mem_filterMap]
  constructor
  · rintro ⟨e, he, heq⟩
    split at heq
    · next hp =>
      rw [Option.some_inj] at heq
      intro hnil
      have hmem : e ∈ specQualActor evaluaciones tipo :=
        List.mem_filter.mpr ⟨he, by
          rw [decide_eq_true_eq]
          exact ⟨heq, (promedioGeneralNeZeroIff e (hval e he)).mpr
            ((promedioGeneralPosIff e (hval e he)).mp hp)⟩⟩
      rw [hnil] at hmem
      cases hmem
    · cases heq
  · intro hne
    obtain ⟨e, he⟩ := listNeNilIffExistsMem.mp hne
    obtain ⟨hmem, hpred⟩ := List.mem_filter.mp he
    rw [decide_eq_true_eq] at hpred
    refine ⟨e, hmem, ?_⟩
    rw [if_pos ((promedioGeneralPosIff e (hval e hmem)).mpr
      ((promedioGeneralNeZeroIff e (hval e hmem)).mp hpred.2))]
    rw [hpred.1]

/-! ## Claim theorems -/

/-- C6: constructing a `Calificacion` with value `v` succeeds iff
`1.0 ≤ v ≤ 5.0`, fails with `InvalidCalificacionError` otherwise, and
`es_aprobatoria()` of a constructed rating holds iff its value is
`≥ 3.0`. -/
theorem c6_calificacion_rango_y_aprobatoria :
    ∀ v : ℚ,
      ((∃ c : Calificacion, mkCalificacion v = .ok c) ↔ (1 ≤ v ∧ v ≤ 5))
      ∧ (¬ (1 ≤ v ∧ v ≤ 5) →
          mkCalificacion v = .error (.invalidCalificacion v))
      ∧ (∀ c : Calificacion, mkCalificacion v = .ok c →
          (c.esAprobatoria = true ↔ 3 ≤ v)) := by
  intro v
  refine ⟨⟨?_, ?_⟩, ?_, ?_⟩
  · rintro ⟨c, hc⟩
    by_contra h
    rw [mkCalificacion, if_neg h] at hc
    cases hc
  · intro h
    exact ⟨⟨v⟩, by rw [mkCalificacion, if_pos h]⟩
  · intro h
    rw [mkCalificacion, if_neg h]
  · intro c hc
    by_cases h : 1 ≤ v ∧ v ≤ 5
    · rw [mkCalificacion, if_pos h, Except.ok.injEq] at hc
      subst hc
      simp [Calificacion.esAprobatoria]
    · rw [mkCalificacion, if_neg h] at hc
      cases hc

/-- Witness for C6 at concrete ratings `3`, `6` and `2.5`. -/
theorem c6_calificacion_rango_y_aprobatoria_witness :
    mkCalificacion 3 = .ok ⟨3⟩
    ∧ mkCalificacion 6 = .error (.invalidCalificacion 6)
    ∧ (⟨3⟩ : Calificacion).esAprobatoria = true
    ∧ (⟨(5 : ℚ) / 2⟩ : Calificacion).esAprobatoria = false := by
  refine ⟨?_, ?_, ?_, ?_⟩
  · obtain ⟨c, hc⟩ :=
      ((c6_calificacion_rango_y_aprobatoria 3).1.mpr (by norm_num))
    rw [hc]
    have := (c6_calificacion_rango_y_aprobatoria 3).2.2 c hc
    rw [mkCalificacion, if_pos (by norm_num)] at hc
    rw [← hc]
  · exact (c6_calificacion_rango_y_aprobatoria 6).2.1 (by norm_num)
  · have hc : mkCalificacion 3 = .ok ⟨3⟩ := by
      rw [mkCalificacion, if_pos (by norm_num)]
    rw [(c6_calificacion_rango_y_aprobatoria 3).2.2 ⟨3⟩ hc]
  · have hc : mkCalificacion ((5 : ℚ) / 2) = .ok ⟨(5 : ℚ) / 2⟩ := by
      rw [mkCalificacion, if_pos (by norm_num)]
    have := (c6_calificacion_rango_y_aprobatoria ((5 : ℚ) / 2)).2.2 _ hc
    rw [Bool.eq_false_iff]
    intro hb
    have h3 := this.mp hb
    norm_num at h3

/-- C10: with all ratings in `[1, 5]`, an evaluation's overall mean and
every category-local mean is either exactly `0` (no qualifying answered
ratings) or at least `1` — nothing strictly between `0` and `1` — so
the `> 0` exclusions in the per-category and per-evaluator-type
aggregation drop exactly the evaluations with no answered qualifying
ratings. -/
theorem c10_promedios_cero_o_al_menos_uno :
    (∀ e : Evaluacion, respuestasValidas e →
      (e.calcularPromedioGeneral = 0 ∨ 1 ≤ e.calcularPromedioGeneral)
      ∧ (¬ (0 < e.calcularPromedioGeneral ∧ e.calcularPromedioGeneral < 1))
      ∧ (0 < e.calcularPromedioGeneral ↔ e.calificacionesValidas ≠ [])
      ∧ (∀ cat : Categoria,
          (e.calcularPromedioPorCategoria cat = 0
            ∨ 1 ≤ e.calcularPromedioPorCategoria cat)
          ∧ ¬ (0 < e.calcularPromedioPorCategoria cat
                ∧ e.calcularPromedioPorCategoria cat < 1)
          ∧ (0 < e.calcularPromedioPorCategoria cat
              ↔ e.calificacionesDeCategoria cat ≠ [])))
    ∧ (∀ (evaluaciones : List Evaluacion),
        (∀ e ∈ evaluaciones, respuestasValidas e) →
        (∀ tipo : String,
          CalcPromedio.actorPromedios evaluaciones tipo
            = ((evaluaciones.filter fun e =>
                decide (e.tipoFormulario = tipo
                  ∧ e.calificacionesValidas ≠ [])).map
                (·.calcularPromedioGeneral)))
        ∧ (∀ cat : Categoria, cat ≠ Categoria.comentarios →
            CalcPromedio.catPromedios evaluaciones cat
              = ((evaluaciones.filter fun e =>
                  decide (e.calificacionesDeCategoria cat ≠ [])).map
                  (·.calcularPromedioPorCategoria cat)))) := by
  constructor
  · intro e hv
    refine ⟨?_, ?_, ?_, ?_⟩
    · rcases promedioGeneralCases e hv with ⟨h0, _⟩ | ⟨h1, _⟩
      · exact Or.inl h0
      · exact Or.inr h1
    · rintro ⟨hpos, hlt⟩
      rcases promedioGeneralCases e hv with ⟨h0, _⟩ | ⟨h1, _⟩
      · rw [h0] at hpos
        exact lt_irrefl 0 hpos
      · linarith
    · exact promedioGeneralPosIff e hv
    · intro cat
      refine ⟨?_, ?_, promedioPorCategoriaPosIff e cat hv⟩
      · rcases promedioPorCategoriaCases e cat hv with ⟨h0, _⟩ | ⟨h1, _⟩
        · exact Or.inl h0
        · exact Or.inr h1
      · rintro ⟨hpos, hlt⟩
        rcases promedioPorCategoriaCases e cat hv with ⟨h0, _⟩ | ⟨h1, _⟩
        · rw [h0] at hpos
          exact lt_irrefl 0 hpos
        · linarith
  · intro evaluaciones hval
    constructor
    · intro tipo
      rw [actorPromediosEqQual evaluaciones tipo hval, specQualActor]
      congr 1
      refine List.filter_congr ?_
      intro e he
      have := promedioGeneralNeZeroIff e (hval e he)
      by_cases ht : e.tipoFormulario = tipo
      · by_cases hne : e.calificacionesValidas = [] <;>
          simp [ht, hne, this]
      · simp [ht]
    · intro cat hcat
      rw [catPromediosEqQual evaluaciones cat hcat hval, specQualCat]
      congr 1
      refine List.filter_congr ?_
      intro e he
      have := promedioPorCategoriaNeZeroIff e cat (hval e he)
      by_cases hne : e.calificacionesDeCategoria cat = [] <;>
        simp [hne, this]

/-- Witness for C10: the demonstration evaluation has overall mean `3`,
and an empty evaluation has overall mean `0`. -/
theorem c10_promedios_cero_o_al_menos_uno_witness :
    respuestasValidas evalDemo1
    ∧ (evalDemo1.calcularPromedioGeneral = 0
        ∨ 1 ≤ evalDemo1.calcularPromedioGeneral)
    ∧ (0 < evalDemo1.calcularPromedioGeneral
        ↔ evalDemo1.calificacionesValidas ≠ []) := by
  have hv : respuestasValidas evalDemo1 := by
    intro pc hpc cal hcal
    rw [evalDemo1] at hpc
    rcases List.mem_cons.mp hpc with rfl | h
    · rw [Option.some_inj] at hcal
      subst hcal
      norm_num
    · cases h
  exact ⟨hv, (c10_promedios_cero_o_al_menos_uno.1 evalDemo1 hv).1,
    (c10_promedios_cero_o_al_menos_uno.1 evalDemo1 hv).2.2.1⟩

/-- C1: the overall average is the arithmetic mean of the
per-evaluation means (each taken over non-`None` ratings on
non-Comments questions, `0.0` when there are none, and still counted in
the outer mean); on the worked example the unfiltered average is `4.0`
and filtering by `2025-2` gives `5.0` with one evaluation. -/
theorem c1_promedio_general_media_de_medias :
    (∀ e : Evaluacion, e.calcularPromedioGeneral = specPromedioEvaluacion e)
    ∧ (∀ evaluaciones : List Evaluacion, evaluaciones ≠ [] →
        CalcPromedio.calcularPromedioGeneral evaluaciones
          = (evaluaciones.map specPromedioEvaluacion).sum
              / (evaluaciones.length : ℚ))
    ∧ (∃ r : PromedioProfesorResponse,
        CalcPromedio.execute repoDemo ⟨"D1", none⟩ = .ok r
          ∧ r.promedioGeneral = 4 ∧ r.totalEvaluaciones = 2)
    ∧ (∃ r : PromedioProfesorResponse,
        CalcPromedio.execute repoDemo ⟨"D1", some "2025-2"⟩ = .ok r
          ∧ r.promedioGeneral = 5 ∧ r.totalEvaluaciones = 1) := by
  have hA : ∀ e : Evaluacion,
      e.calcularPromedioGeneral = specPromedioEvaluacion e := by
    intro e
    have hL : e.calificacionesValidas = e.respuestas.filterMap fun pc =>
        match pc.2 with
        | some cal =>
          if pc.1.categoria = Categoria.comentarios then none
          else some cal.valor
        | none => none := by
      refine List.filterMap_congr ?_
      intro pc _
      rcases pc with ⟨p, c⟩
      cases c with
      | none => rfl
      | some cal =>
        by_cases h : p.categoria = Categoria.comentarios <;>
          simp [Pregunta.esComentario, h]
    simp only [Evaluacion.calcularPromedioGeneral, specPromedioEvaluacion]
    rw [hL]
  have h1 : evalDemo1.calcularPromedioGeneral = 3 := by
    have hcv : evalDemo1.calificacionesValidas = [3] := rfl
    simp only [Evaluacion.calcularPromedioGeneral, hcv]
    norm_num [listMean]
  have h2 : evalDemo2.calcularPromedioGeneral = 5 := by
    have hcv : evalDemo2.calificacionesValidas = [5] := rfl
    simp only [Evaluacion.calcularPromedioGeneral, hcv]
    norm_num [listMean]
  refine ⟨hA, ?_, ?_, ?_⟩
  · intro evaluaciones hne
    have hmap : evaluaciones.map (·.calcularPromedioGeneral)
        = evaluaciones.map specPromedioEvaluacion :=
      List.map_congr_left fun e _ => hA e
    simp only [CalcPromedio.calcularPromedioGeneral]
    rw [hmap, if_neg (by simpa using hne), listMean, List.length_map]
  · have hfind : findByProfesor repoDemo "D1" = repoDemo := rfl
    have hexec : CalcPromedio.execute repoDemo ⟨"D1", none⟩ = .ok
        { documento := "D1"
          nombreCompleto := ((repoDemo.head?).map (·.profesorNombre)).getD ""
          periodo := none
          promedioGeneral := CalcPromedio.calcularPromedioGeneral repoDemo
          totalEvaluaciones := repoDemo.length
          promediosPorCategoria := CalcPromedio.calcularPorCategoria repoDemo
          promediosPorActor := CalcPromedio.calcularPorActor repoDemo } := by
      rw [CalcPromedio.execute, hfind, if_neg (by decide)]
    refine ⟨_, hexec, ?_, ?_⟩
    · show CalcPromedio.calcularPromedioGeneral repoDemo = 4
      simp only [CalcPromedio.calcularPromedioGeneral, repoDemo,
        List.map_cons, List.map_nil, h1, h2]
      rw [if_neg (by simp)]
      norm_num [listMean]
    · rfl
  · have hexec : CalcPromedio.execute repoDemo ⟨"D1", some "2025-2"⟩ = .ok
        { documento := "D1"
          nombreCompleto := ((([evalDemo2] : List Evaluacion).head?).map
            (·.profesorNombre)).getD ""
          periodo := some "2025-2"
          promedioGeneral := CalcPromedio.calcularPromedioGeneral [evalDemo2]
          totalEvaluaciones := ([evalDemo2] : List Evaluacion).length
          promediosPorCategoria := CalcPromedio.calcularPorCategoria [evalDemo2]
          promediosPorActor := CalcPromedio.calcularPorActor [evalDemo2] } := by
      rw [CalcPromedio.execute,
        show findByProfesor repoDemo "D1" = repoDemo from rfl,
        if_neg (by decide)]
      rfl
    refine ⟨_, hexec, ?_, ?_⟩
    · show CalcPromedio.calcularPromedioGeneral [evalDemo2] = 5
      simp only [CalcPromedio.calcularPromedioGeneral, List.map_cons,
        List.map_nil, h2]
      rw [if_neg (by simp)]
      norm_num [listMean]
    · rfl

/-- Witness for C1's universally quantified part at the worked
example's two-evaluation list. -/
theorem c1_promedio_general_media_de_medias_witness :
    repoDemo ≠ []
    ∧ CalcPromedio.calcularPromedioGeneral repoDemo
        = (repoDemo.map specPromedioEvaluacion).sum / (repoDemo.length : ℚ) :=
  ⟨by decide, c1_promedio_general_media_de_medias.2.1 repoDemo (by decide)⟩

theorem memCategoriaAll (c : Categoria) : c ∈ Categoria.all := by
  cases c <;> decide

theorem catPromediosComentariosNil (evaluaciones : List Evaluacion) :
    CalcPromedio.catPromedios evaluaciones Categoria.comentarios = [] := by
  rw [CalcPromedio.catPromedios, List.filterMap_eq_nil_iff]
  intro e _
  rw [if_neg]
  rintro ⟨_, hne⟩
  exact hne rfl

theorem pairwiseKeyLeMergeSort {α : Type} (key : α → String) (l : List α) :
    (List.mergeSort l fun x y => decide (key x ≤ key y)).Pairwise
      (fun x y => key x ≤ key y) := by
  refine List.Pairwise.imp ?_ (List.sorted_mergeSort ?_ ?_ l)
  · intro a b h
    rwa [decide_eq_true_eq] at h
  · intro a b c h1 h2
    rw [decide_eq_true_eq] at *
    exact le_trans h1 h2
  · intro a b
    rcases le_total (key a) (key b) with h | h <;> simp [h]

/-- C2: per-category DTOs report, for each non-Comments category with
at least one qualifying evaluation (category-local mean not exactly
`0.0`), the mean of the qualifying evaluations' category-local means
and the qualifying count, sorted ascending by the full canonical
label; per-evaluator-type DTOs likewise average the group members'
overall means excluding exact-zero members, report the qualifying
count, and are sorted ascending by label. -/
theorem c2_promedios_por_categoria_y_actor (evaluaciones : List Evaluacion)
    (hval : ∀ e ∈ evaluaciones, respuestasValidas e) :
    (CalcPromedio.calcularPorCategoria evaluaciones).Pairwise
        (fun x y => x.categoria ≤ y.categoria)
    ∧ (∀ dto : PromedioCategoriaDTO,
        dto ∈ CalcPromedio.calcularPorCategoria evaluaciones ↔
          ∃ cat : Categoria, cat ≠ Categoria.comentarios
            ∧ specQualCat evaluaciones cat ≠ []
            ∧ dto = ⟨cat.value, cat.descripcionCorta,
                listMean ((specQualCat evaluaciones cat).map
                  (·.calcularPromedioPorCategoria cat)),
                (specQualCat evaluaciones cat).length⟩)
    ∧ (CalcPromedio.calcularPorActor evaluaciones).Pairwise
        (fun x y => x.actor ≤ y.actor)
    ∧ (∀ dto : PromedioActorDTO,
        dto ∈ CalcPromedio.calcularPorActor evaluaciones ↔
          ∃ tipo : String, specQualActor evaluaciones tipo ≠ []
            ∧ dto = ⟨tipo,
                listMean ((specQualActor evaluaciones tipo).map
                  (·.calcularPromedioGeneral)),
                (specQualActor evaluaciones tipo).length⟩) := by
  refine ⟨pairwiseKeyLeMergeSort _ _, ?_, pairwiseKeyLeMergeSort _ _, ?_⟩
  · intro dto
    rw [CalcPromedio.calcularPorCategoria,
      (List.mergeSort_perm _ _).mem_iff, List.mem_filterMap]
    constructor
    · rintro ⟨cat, _, heq⟩
      have hcat : cat ≠ Categoria.comentarios := by
        rintro rfl
        rw [catPromediosComentariosNil, if_pos rfl] at heq
        cases heq
      rw [catPromediosEqQual evaluaciones cat hcat hval] at heq
      by_cases hne : specQualCat evaluaciones cat = []
      · rw [hne] at heq
        simp at heq
      · rw [if_neg (by simpa using hne), Option.some_inj] at heq
        refine ⟨cat, hcat, hne, ?_⟩
        rw [← heq, List.length_map]
    · rintro ⟨cat, hcat, hne, rfl⟩
      refine ⟨cat, memCategoriaAll cat, ?_⟩
      rw [catPromediosEqQual evaluaciones cat hcat hval,
        if_neg (by simpa using hne), Option.some_inj, List.length_map]
  · intro dto
    rw [CalcPromedio.calcularPorActor,
      (List.mergeSort_perm _ _).mem_iff, List.mem_filterMap]
    constructor
    · rintro ⟨tipo, htipo, heq⟩
      have hne : specQualActor evaluaciones tipo ≠ [] :=
        (memActoresIff evaluaciones tipo hval).mp htipo
      rw [actorPromediosEqQual evaluaciones tipo hval,
        if_neg (by simpa using hne), Option.some_inj] at heq
      refine ⟨tipo, hne, ?_⟩
      rw [← heq, List.length_map]
    · rintro ⟨tipo, hne, rfl⟩
      refine ⟨tipo, (memActoresIff evaluaciones tipo hval).mpr hne, ?_⟩
      rw [actorPromediosEqQual evaluaciones tipo hval,
        if_neg (by simpa using hne), Option.some_inj, List.length_map]

/-- Witness for C2 at the worked example's repository. -/
theorem c2_promedios_por_categoria_y_actor_witness :
    (∀ e ∈ repoDemo, respuestasValidas e)
    ∧ (CalcPromedio.calcularPorCategoria repoDemo).Pairwise
        (fun x y => x.categoria ≤ y.categoria)
    ∧ (CalcPromedio.calcularPorActor repoDemo).Pairwise
        (fun x y => x.actor ≤ y.actor) := by
  have hval : ∀ e ∈ repoDemo, respuestasValidas e := by
    intro e he pc hpc cal hcal
    rcases List.mem_cons.mp he with rfl | he2
    · rcases List.mem_cons.mp hpc with rfl | h
      · rw [Option.some_inj] at hcal
        subst hcal
        norm_num
      · cases h
    · rcases List.mem_cons.mp he2 with rfl | h
      · rcases List.mem_cons.mp hpc with rfl | h
        · rw [Option.some_inj] at hcal
          subst hcal
          norm_num
        · cases h
      · cases h
  exact ⟨hval, (c2_promedios_por_categoria_y_actor repoDemo hval).1,
    (c2_promedios_por_categoria_y_actor repoDemo hval).2.2.1⟩

/-! ## Recommendation Engine support (claim C3) -/

theorem pairwiseCalifLeMergeSort (l : List RecomendacionMejora) :
    (List.mergeSort l fun a b =>
        decide (a.calificacionPromedio ≤ b.calificacionPromedio)).Pairwise
      (fun a b => a.calificacionPromedio ≤ b.calificacionPromedio) := by
  refine List.Pairwise.imp ?_ (List.sorted_mergeSort ?_ ?_ l)
  · intro a b h
    rwa [decide_eq_true_eq] at h
  · intro a b c h1 h2
    rw [decide_eq_true_eq] at *
    exact le_trans h1 h2
  · intro a b
    rcases le_total a.calificacionPromedio b.calificacionPromedio with h | h <;>
      simp [h]

theorem catCalificacionesEqSpec (evaluaciones : List Evaluacion)
    (cat : Categoria) (hcat : cat ≠ Categoria.comentarios) :
    Mejora.catCalificaciones evaluaciones cat
      = specCatRatings evaluaciones cat := by
  unfold Mejora.catCalificaciones specCatRatings
  refine List.flatMap_congr ?_
  intro e _
  refine List.filterMap_congr ?_
  intro pc _
  rcases pc with ⟨p, c⟩
  cases c with
  | none => rfl
  | some cal =>
    dsimp only
    by_cases h : p.categoria = cat
    · rw [if_pos ⟨h, by simp [Pregunta.esComentario, h, hcat]⟩, if_pos h]
    · rw [if_neg (fun hc => h hc.1), if_neg h]

theorem califsDePreguntaEqSpec (evaluaciones : List Evaluacion)
    (cat : Categoria) (codigo : String) (hcat : cat ≠ Categoria.comentarios) :
    Mejora.calificacionesDePregunta evaluaciones cat codigo
      = specPregRatings evaluaciones cat codigo := by
  unfold Mejora.calificacionesDePregunta specPregRatings
  refine List.flatMap_congr ?_
  intro e _
  refine List.filterMap_congr ?_
  intro pc _
  rcases pc with ⟨p, c⟩
  cases c with
  | none => rfl
  | some cal =>
    dsimp only
    by_cases h : p.categoria = cat ∧ p.codigo = codigo
    · rw [if_pos ⟨h.1, by simp [Pregunta.esComentario, h.1, hcat], h.2⟩,
        if_pos h]
    · rw [if_neg (fun hc => h ⟨hc.1, hc.2.2⟩), if_neg h]

theorem memCategoriasPresentesIff (evaluaciones : List Evaluacion)
    (cat : Categoria) :
    cat ∈ Mejora.categoriasPresentes evaluaciones ↔
      Mejora.catCalificaciones evaluaciones cat ≠ [] := by
  unfold Mejora.categoriasPresentes Mejora.catCalificaciones
  rw [memDedupFirstById, List.mem_flatMap]
  constructor
  · rintro ⟨e, he, hmem⟩
    rw [List.mem_filterMap] at hmem
    obtain ⟨⟨p, c⟩, hpc, heq⟩ := hmem
    cases c with
    | none => cases heq
    | some cal =>
      dsimp only at heq
      split at heq
      · cases heq
      · next hcom =>
        rw [Option.some_inj] at heq
        refine listNeNilIffExistsMem.mpr ⟨cal.valor, ?_⟩
        rw [List.mem_flatMap]
        refine ⟨e, he, ?_⟩
        rw [List.mem_filterMap]
        refine ⟨(p, some cal), hpc, ?_⟩
        dsimp only
        rw [if_pos ⟨heq, hcom⟩]
  · intro hne
    obtain ⟨x, hx⟩ := listNeNilIffExistsMem.mp hne
    rw [List.mem_flatMap] at hx
    obtain ⟨e, he, hmem⟩ := hx
    rw [List.mem_filterMap] at hmem
    obtain ⟨⟨p, c⟩, hpc, heq⟩ := hmem
    cases c with
    | none => cases heq
    | some cal =>
      dsimp only at heq
      split at heq
      · next hcond =>
        refine ⟨e, he, ?_⟩
        rw [List.mem_filterMap]
        refine ⟨(p, some cal), hpc, ?_⟩
        dsimp only
        rw [if_neg hcond.2, Option.some_inj]
        exact hcond.1
      · cases heq

theorem existsPreguntaConCodigoIff (evaluaciones : List Evaluacion)
    (cat : Categoria) (codigo : String) :
    (∃ p ∈ Mejora.preguntasConCalifs evaluaciones cat, p.codigo = codigo)
      ↔ Mejora.calificacionesDePregunta evaluaciones cat codigo ≠ [] := by
  unfold Mejora.preguntasConCalifs
  rw [dedupFirstBy.eq_def]
  constructor
  · intro h
    obtain ⟨hmem, _⟩ :=
      (memKeysKeepFirsts (fun p : Pregunta => p.codigo) [] _ codigo).mp h
    rw [List.mem_map] at hmem
    obtain ⟨p, hpL, hcod⟩ := hmem
    rw [List.mem_flatMap] at hpL
    obtain ⟨e, he, hmem2⟩ := hpL
    rw [List.mem_filterMap] at hmem2
    obtain ⟨⟨q, c⟩, hqc, heq⟩ := hmem2
    cases c with
    | none => cases heq
    | some cal =>
      dsimp only at heq
      split at heq
      · next hcond =>
        rw [Option.some_inj] at heq
        subst heq
        refine listNeNilIffExistsMem.mpr ⟨cal.valor, ?_⟩
        rw [Mejora.calificacionesDePregunta, List.mem_flatMap]
        refine ⟨e, he, ?_⟩
        rw [List.mem_filterMap]
        refine ⟨(q, some cal), hqc, ?_⟩
        dsimp only
        rw [if_pos ⟨hcond.1, hcond.2, hcod⟩]
      · cases heq
  · intro hne
    obtain ⟨x, hx⟩ := listNeNilIffExistsMem.mp hne
    rw [Mejora.calificacionesDePregunta, List.mem_flatMap] at hx
    obtain ⟨e, he, hmem⟩ := hx
    rw [List.mem_filterMap] at hmem
    obtain ⟨⟨q, c⟩, hqc, heq⟩ := hmem
    cases c with
    | none => cases heq
    | some cal =>
      dsimp only at heq
      split at heq
      · next hcond =>
        refine (memKeysKeepFirsts (fun p : Pregunta => p.codigo) [] _ codigo).mpr
          ⟨?_, by simp⟩
        rw [List.mem_map]
        refine ⟨q, ?_, hcond.2.2⟩
        rw [List.mem_flatMap]
        refine ⟨e, he, ?_⟩
        rw [List.mem_filterMap]
        refine ⟨(q, some cal), hqc, ?_⟩
        dsimp only
        rw [if_pos ⟨hcond.1, hcond.2.1⟩]
      · cases heq

theorem findQCongr {α : Type} {p q : α → Bool} :
    ∀ l : List α, (∀ a ∈ l, p a = q a) → l.find? p = l.find? q := by
  intro l
  induction l with
  | nil => intro _; rfl
  | cons a t ih =>
    intro h
    rw [List.find?_cons, List.find?_cons, h a (List.mem_cons_self _ _),
      ih fun b hb => h b (List.mem_cons_of_mem _ hb)]

theorem keywordsLower :
    ∀ r ∈ Mejora.recomendacionesTabla, ∀ kv ∈ r.keywords,
      pyLower kv.1 = kv.1 := by
  decide

theorem obtenerRecomendacionEqSpec (categoria texto : String) :
    Mejora.obtenerRecomendacion categoria texto
      = specResolve categoria texto := by
  unfold Mejora.obtenerRecomendacion specResolve
  rcases hfind : Mejora.recomendacionesTabla.find?
      (fun r => decide (r.categoria = categoria)) with _ | config
  · rw [hfind]
  · rw [hfind]
    have hkw : ∀ kv ∈ config.keywords, pyLower kv.1 = kv.1 :=
      keywordsLower config (List.mem_of_find?_eq_some hfind)
    dsimp only
    rw [@findQCongr (String × String)
      (fun kv => listSubB kv.1.data (pyLower texto).data)
      (fun kv => listSubB (pyLower kv.1).data (pyLower texto).data)
      config.keywords (fun kv hkv => by dsimp only; rw [hkw kv hkv])]

theorem catCalificacionesComentariosNil (evaluaciones : List Evaluacion) :
    Mejora.catCalificaciones evaluaciones Categoria.comentarios = [] := by
  rw [Mejora.catCalificaciones, List.flatMap_eq_nil_iff]
  intro e _
  rw [List.filterMap_eq_nil_iff]
  intro pc _
  rcases pc with ⟨p, c⟩
  cases c with
  | none => rfl
  | some cal =>
    dsimp only
    rw [if_neg]
    rintro ⟨h1, h2⟩
    exact h2 (by simp [Pregunta.esComentario, h1])

/-- C3: the Recommendation Engine computes flat (not mean-of-means)
per-category means over all answered non-Comments ratings, selects
exactly the categories with flat mean strictly below `4.0`, within them
selects exactly the questions with flat mean strictly below `4.0`,
resolves each text by exact-category table lookup / first
case-insensitive keyword substring / category default / generic
fallback, sorts each category's recommendations by ascending mean, and
omits categories left with zero selected questions. -/
theorem c3_motor_de_recomendaciones (evaluaciones : List Evaluacion) :
    (∀ (cat : Categoria) (prom : ℚ),
        (cat, prom) ∈ Mejora.promediosPorCategoria evaluaciones ↔
          (cat ≠ Categoria.comentarios
            ∧ specCatRatings evaluaciones cat ≠ []
            ∧ prom = listMean (specCatRatings evaluaciones cat)))
    ∧ (∀ m : MejoraPorCategoria,
        m ∈ Mejora.categoriasAMejorar evaluaciones ↔
          ∃ cat : Categoria, cat ≠ Categoria.comentarios
            ∧ specCatRatings evaluaciones cat ≠ []
            ∧ listMean (specCatRatings evaluaciones cat) < 4
            ∧ Mejora.generarRecomendaciones cat evaluaciones ≠ []
            ∧ m = ⟨cat.value, listMean (specCatRatings evaluaciones cat),
                Mejora.generarRecomendaciones cat evaluaciones⟩)
    ∧ (∀ cat : Categoria,
        (Mejora.generarRecomendaciones cat evaluaciones).Pairwise
          (fun a b => a.calificacionPromedio ≤ b.calificacionPromedio))
    ∧ (∀ (cat : Categoria) (r : RecomendacionMejora),
        cat ≠ Categoria.comentarios →
        (r ∈ Mejora.generarRecomendaciones cat evaluaciones ↔
          ∃ p ∈ Mejora.preguntasConCalifs evaluaciones cat,
            listMean (specPregRatings evaluaciones cat p.codigo) < 4
            ∧ r = ⟨p.codigo, p.texto,
                listMean (specPregRatings evaluaciones cat p.codigo),
                specResolve cat.value p.texto⟩))
    ∧ (∀ (cat : Categoria) (codigo : String), cat ≠ Categoria.comentarios →
        ((∃ p ∈ Mejora.preguntasConCalifs evaluaciones cat,
            p.codigo = codigo)
          ↔ specPregRatings evaluaciones cat codigo ≠ []))
    ∧ (∀ (categoria texto : String),
        Mejora.obtenerRecomendacion categoria texto
          = specResolve categoria texto) := by
  have hmem1 : ∀ (cat : Categoria) (prom : ℚ),
      (cat, prom) ∈ Mejora.promediosPorCategoria evaluaciones ↔
        (cat ≠ Categoria.comentarios
          ∧ specCatRatings evaluaciones cat ≠ []
          ∧ prom = listMean (specCatRatings evaluaciones cat)) := by
    intro cat prom
    rw [Mejora.promediosPorCategoria, List.mem_map]
    constructor
    · rintro ⟨c, hc, heq⟩
      rw [Prod.mk.injEq] at heq
      obtain ⟨rfl, rfl⟩ := heq
      have hne := (memCategoriasPresentesIff evaluaciones c).mp hc
      have hcat : c ≠ Categoria.comentarios := by
        rintro rfl
        exact hne (catCalificacionesComentariosNil evaluaciones)
      rw [catCalificacionesEqSpec evaluaciones c hcat] at hne ⊢
      exact ⟨hcat, hne, rfl⟩
    · rintro ⟨hcat, hne, rfl⟩
      refine ⟨cat, ?_, ?_⟩
      · rw [memCategoriasPresentesIff,
          catCalificacionesEqSpec evaluaciones cat hcat]
        exact hne
      · rw [catCalificacionesEqSpec evaluaciones cat hcat]
  refine ⟨hmem1, ?_, ?_, ?_, ?_, obtenerRecomendacionEqSpec⟩
  · intro m
    rw [Mejora.categoriasAMejorar, List.mem_filterMap]
    constructor
    · rintro ⟨⟨c, prom⟩, hmem, heq⟩
      dsimp only at heq
      split at heq
      · next hlt =>
        split at heq
        · cases heq
        · next hrecs =>
          rw [Option.some_inj] at heq
          obtain ⟨hcat, hne, hprom⟩ := (hmem1 c prom).mp hmem
          subst hprom
          exact ⟨c, hcat, hne, hlt, hrecs, heq.symm⟩
      · cases heq
    · rintro ⟨cat, hcat, hne, hlt, hrecs, rfl⟩
      refine ⟨(cat, listMean (specCatRatings evaluaciones cat)),
        (hmem1 cat _).mpr ⟨hcat, hne, rfl⟩, ?_⟩
      dsimp only
      rw [if_pos hlt, if_neg hrecs]
  · intro cat
    rw [Mejora.generarRecomendaciones]
    exact pairwiseCalifLeMergeSort _
  · intro cat r hcat
    rw [Mejora.generarRecomendaciones, (List.mergeSort_perm _ _).mem_iff,
      List.mem_filterMap]
    constructor
    · rintro ⟨p, hp, heq⟩
      dsimp only at heq
      split at heq
      · next hlt =>
        rw [Option.some_inj] at heq
        rw [califsDePreguntaEqSpec evaluaciones cat p.codigo hcat] at hlt
        refine ⟨p, hp, hlt, ?_⟩
        rw [← heq, califsDePreguntaEqSpec evaluaciones cat p.codigo hcat,
          obtenerRecomendacionEqSpec]
      · cases heq
    · rintro ⟨p, hp, hlt, rfl⟩
      refine ⟨p, hp, ?_⟩
      dsimp only
      rw [if_pos (by
        rw [califsDePreguntaEqSpec evaluaciones cat p.codigo hcat]
        exact hlt)]
      rw [Option.some_inj, califsDePreguntaEqSpec evaluaciones cat p.codigo hcat,
        obtenerRecomendacionEqSpec]
  · intro cat codigo hcat
    rw [existsPreguntaConCodigoIff,
      califsDePreguntaEqSpec evaluaciones cat codigo hcat]

/-- Witness for C3: the recommendation-text resolver agrees with the
spec's case-insensitive rule on a concrete category and question
text. -/
theorem c3_motor_de_recomendaciones_witness :
    Mejora.obtenerRecomendacion "EVALUACIÓN DEL APRENDIZAJE"
        "Brinda retroalimentación oportuna"
      = specResolve "EVALUACIÓN DEL APRENDIZAJE"
        "Brinda retroalimentación oportuna" :=
  (c3_motor_de_recomendaciones []).2.2.2.2.2
    "EVALUACIÓN DEL APRENDIZAJE" "Brinda retroalimentación oportuna"


instance (repo : EvalRepoH) (h : Heap Evaluacion) :
    Decidable (repo.bounded h) := by
  unfold EvalRepoH.bounded
  infer_instance

instance (repo : PregRepoH) (h : Heap Pregunta) :
    Decidable (repo.bounded h) := by
  unfold PregRepoH.bounded
  infer_instance

/-- The pure contents a query reads out of the repository's internal
cells (before the fresh copy is allocated). -/
def evalQueryContents (repo : EvalRepoH) (h : Heap Evaluacion) :
    EvalQuery → List Evaluacion
  | .findAll => h.mem repo.evaluacionesRef
  | .byProfesor documento => readBucket h (lookupRef repo.byProfesor documento)
  | .byPeriodo periodo => readBucket h (lookupRef repo.byPeriodo periodo)
  | .byTipoFormulario tipo =>
    readBucket h (lookupRef repo.byTipoFormulario tipo)
  | .byProfesorAndPeriodo documento periodo =>
    (readBucket h (lookupRef repo.byProfesor documento)).filter
      fun e => decide (e.periodo = periodo)

/-- Pure contents of the question-repository queries. -/
def pregQueryContents (repo : PregRepoH) (h : Heap Pregunta) :
    PregQuery → List Pregunta
  | .findAll => h.mem repo.preguntasRef
  | .byCategoria categoria =>
    readBucket h (lookupRef repo.byCategoria categoria)

theorem runEvalQueryEq (repo : EvalRepoH) (h : Heap Evaluacion)
    (q : EvalQuery) :
    runEvalQuery repo h q = h.alloc (evalQueryContents repo h q) := by
  cases q <;> rfl

theorem runPregQueryEq (repo : PregRepoH) (h : Heap Pregunta) (q : PregQuery) :
    runPregQuery repo h q = h.alloc (pregQueryContents repo h q) := by
  cases q <;> rfl

theorem lookupRefMem {κ : Type} [DecidableEq κ] (assoc : List (κ × Nat))
    (k : κ) (r : Nat) (h : lookupRef assoc k = some r) :
    r ∈ assoc.map (·.2) := by
  unfold lookupRef at h
  rcases hf : assoc.find? (fun kv => decide (kv.1 = k)) with _ | kv
  · rw [hf] at h
    cases h
  · rw [hf] at h
    rw [Option.map_some'] at h
    rw [Option.some_inj] at h
    rw [← h]
    exact List.mem_map_of_mem _ (List.mem_of_find?_eq_some hf)

theorem evalQueryContentsCongr (repo : EvalRepoH) (h h₂ : Heap Evaluacion)
    (hagree : ∀ ref ∈ repo.refs, h₂.mem ref = h.mem ref) (q : EvalQuery) :
    evalQueryContents repo h₂ q = evalQueryContents repo h q := by
  cases q with
  | findAll =>
    exact hagree _ (List.mem_cons_self _ _)
  | byProfesor documento =>
    show readBucket h₂ (lookupRef repo.byProfesor documento)
      = readBucket h (lookupRef repo.byProfesor documento)
    rcases hl : lookupRef repo.byProfesor documento with _ | r
    · rfl
    · exact hagree r (List.mem_cons_of_mem _ (List.mem_append_left _
        (List.mem_append_left _ (lookupRefMem _ _ _ hl))))
  | byPeriodo periodo =>
    show readBucket h₂ (lookupRef repo.byPeriodo periodo)
      = readBucket h (lookupRef repo.byPeriodo periodo)
    rcases hl : lookupRef repo.byPeriodo periodo with _ | r
    · rfl
    · exact hagree r (List.mem_cons_of_mem _ (List.mem_append_left _
        (List.mem_append_right _ (lookupRefMem _ _ _ hl))))
  | byTipoFormulario tipo =>
    show readBucket h₂ (lookupRef repo.byTipoFormulario tipo)
      = readBucket h (lookupRef repo.byTipoFormulario tipo)
    rcases hl : lookupRef repo.byTipoFormulario tipo with _ | r
    · rfl
    · exact hagree r (List.mem_cons_of_mem _
        (List.mem_append_right _ (lookupRefMem _ _ _ hl)))
  | byProfesorAndPeriodo documento periodo =>
    show (readBucket h₂ (lookupRef repo.byProfesor documento)).filter
        (fun e => decide (e.periodo = periodo))
      = (readBucket h (lookupRef repo.byProfesor documento)).filter
        (fun e => decide (e.periodo = periodo))
    rcases hl : lookupRef repo.byProfesor documento with _ | r
    · rfl
    · rw [show readBucket h₂ (some r) = readBucket h (some r) from
        hagree r (List.mem_cons_of_mem _ (List.mem_append_left _
          (List.mem_append_left _ (lookupRefMem _ _ _ hl))))]

theorem pregQueryContentsCongr (repo : PregRepoH) (h h₂ : Heap Pregunta)
    (hagree : ∀ ref ∈ repo.refs, h₂.mem ref = h.mem ref) (q : PregQuery) :
    pregQueryContents repo h₂ q = pregQueryContents repo h q := by
  cases q with
  | findAll => exact hagree _ (List.mem_cons_self _ _)
  | byCategoria categoria =>
    show readBucket h₂ (lookupRef repo.byCategoria categoria)
      = readBucket h (lookupRef repo.byCategoria categoria)
    rcases hl : lookupRef repo.byCategoria categoria with _ | r
    · rfl
    · exact hagree r (List.mem_cons_of_mem _ (lookupRefMem _ _ _ hl))

theorem writeFreshPreservesMem {α : Type} (h : Heap α) (v v' : List α)
    (ref : Nat) (href : ref < h.next) :
    (((h.alloc v).2).write (h.alloc v).1 v').mem ref = h.mem ref := by
  unfold Heap.alloc Heap.write
  dsimp only
  rw [if_neg (Nat.ne_of_lt href), if_neg (Nat.ne_of_lt href)]

theorem allocReadBack {α : Type} (h : Heap α) (v : List α) :
    ((h.alloc v).2).mem (h.alloc v).1 = v := by
  unfold Heap.alloc
  dsimp only
  rw [if_pos rfl]

/-- C8: every sequence-returning repository query allocates a fresh
cell for its result (the source calls `.copy()` or builds a new
comprehension), so overwriting the returned sequence leaves every
internal index cell unchanged and a repeated identical query returns
the same contents as before the mutation. -/
theorem c8_consultas_devuelven_copias :
    (∀ (repo : EvalRepoH) (h : Heap Evaluacion) (q : EvalQuery)
        (v : List Evaluacion),
      repo.bounded h →
      (∀ ref ∈ repo.refs,
        ((runEvalQuery repo h q).2.write (runEvalQuery repo h q).1 v).mem ref
          = h.mem ref)
      ∧ (runEvalQuery repo
            ((runEvalQuery repo h q).2.write (runEvalQuery repo h q).1 v)
            q).2.mem
          (runEvalQuery repo
            ((runEvalQuery repo h q).2.write (runEvalQuery repo h q).1 v)
            q).1
        = (runEvalQuery repo h q).2.mem (runEvalQuery repo h q).1)
    ∧ (∀ (repo : PregRepoH) (h : Heap Pregunta) (q : PregQuery)
        (v : List Pregunta),
      repo.bounded h →
      (∀ ref ∈ repo.refs,
        ((runPregQuery repo h q).2.write (runPregQuery repo h q).1 v).mem ref
          = h.mem ref)
      ∧ (runPregQuery repo
            ((runPregQuery repo h q).2.write (runPregQuery repo h q).1 v)
            q).2.mem
          (runPregQuery repo
            ((runPregQuery repo h q).2.write (runPregQuery repo h q).1 v)
            q).1
        = (runPregQuery repo h q).2.mem (runPregQuery repo h q).1) := by
  constructor
  · intro repo h q v hb
    have hagree : ∀ ref ∈ repo.refs,
        ((runEvalQuery repo h q).2.write
          (runEvalQuery repo h q).1 v).mem ref = h.mem ref := by
      intro ref hrefmem
      rw [runEvalQueryEq]
      exact writeFreshPreservesMem h _ v ref (hb ref hrefmem)
    refine ⟨hagree, ?_⟩
    have hagree2 := hagree
    rw [runEvalQueryEq repo h q] at hagree2
    rw [runEvalQueryEq repo
      ((runEvalQuery repo h q).2.write (runEvalQuery repo h q).1 v) q,
      allocReadBack, runEvalQueryEq repo h q, allocReadBack]
    exact evalQueryContentsCongr repo h _ hagree2 q
  · intro repo h q v hb
    have hagree : ∀ ref ∈ repo.refs,
        ((runPregQuery repo h q).2.write
          (runPregQuery repo h q).1 v).mem ref = h.mem ref := by
      intro ref hrefmem
      rw [runPregQueryEq]
      exact writeFreshPreservesMem h _ v ref (hb ref hrefmem)
    refine ⟨hagree, ?_⟩
    have hagree2 := hagree
    rw [runPregQueryEq repo h q] at hagree2
    rw [runPregQueryEq repo
      ((runPregQuery repo h q).2.write (runPregQuery repo h q).1 v) q,
      allocReadBack, runPregQueryEq repo h q, allocReadBack]
    exact pregQueryContentsCongr repo h _ hagree2 q

/-- A one-cell heap and repository for the witness. -/
def heapDemo : Heap Evaluacion :=
  ⟨1, fun r => if r = 0 then [evalDemo1] else []⟩

/-- A concrete evaluation repository over `heapDemo`. -/
def evalRepoDemo : EvalRepoH :=
  ⟨0, [("D1", 0)], [(⟨"2025-1"⟩, 0)], [("ESTUDIANTE V3", 0)]⟩

/-- Witness for C8: mutating the copy returned by `find_all` does not
change what an identical second query returns. -/
theorem c8_consultas_devuelven_copias_witness :
    evalRepoDemo.bounded heapDemo
    ∧ (runEvalQuery evalRepoDemo
          ((runEvalQuery evalRepoDemo heapDemo .findAll).2.write
            (runEvalQuery evalRepoDemo heapDemo .findAll).1 [])
          .findAll).2.mem
        (runEvalQuery evalRepoDemo
          ((runEvalQuery evalRepoDemo heapDemo .findAll).2.write
            (runEvalQuery evalRepoDemo heapDemo .findAll).1 [])
          .findAll).1
      = (runEvalQuery evalRepoDemo heapDemo .findAll).2.mem
          (runEvalQuery evalRepoDemo heapDemo .findAll).1 :=
  ⟨by decide,
    (c8_consultas_devuelven_copias.1 evalRepoDemo heapDemo .findAll []
      (by decide)).2⟩
